import Mathlib

/-!
# tnvme: the Identify command's field decoder and the write test

A shallow embedding of `Cmds/identify.cpp`: the table-driven decoder
`Identify::GetValue`, the CNS mode bit, the LBA format derivation and the hex
dump of a field, and of `GrpBasicInit/writeDataPat_r10b.cpp`: one write command
travelling through a submission/completion queue pair, followed by the
properties proved about them.

Conventions of the embedding
* machine integers are natural numbers, reduced `% 2 ^ w` where the C++ type
  truncates;
* a call ends in one of three ways (`Outcome`): it returns, it executes
  `throw exception()`, or it leaves defined behaviour (an access outside an
  array, a conversion out of range);
* `LOG_NRM` / `LOG_DBG` / `LOG_ERR` only write to the log and are left out of
  the embedding of `identify.cpp`.
-/

namespace Tnvme

/-! ## Data model -/

/-- One `uint8_t`. -/
abbrev Byte := Fin 256

/-- The table entry `IdentifyDataType`, initialised as `{ offset, length, desc }`
by the `ZZ` expansion in `identify.cpp`. The declaration of the struct is in
`identify.h`; the code prints both numbers with `%d` and compares `length`
with an `int` counter, so they are small unsigned integers whose sum is formed
without wrap-around. -/
structure IdentifyDataType where
  offset : Nat
  length : Nat
  desc : String
deriving DecidableEq

/-- The static data of class `Identify` that comes from `identify.h`: the two
field tables (`IDCTRLRCAP_TABLE`, `IDNAMESPC_TABLE` expanded through `ZZ`) and
the enumerators the code names. They are parameters of the embedding. -/
structure IdentifyTables where
  mIdCtrlrCapMetrics : List IdentifyDataType
  mIdNamespcType : List IdentifyDataType
  IDCTRLRCAP_FENCE : Nat
  IDNAMESPC_FENCE : Nat
  IDNAMESPC_FLBAS : Nat
  IDNAMESPC_LBAF0 : Nat

/-- State of an `Identify` command object, as far as `identify.cpp` reads or
writes it: the 64 command bytes (16 dwords) behind `GetByte` / `SetByte`, and
the PRP data buffer behind `GetROPrpBuffer` / `GetPrpBufferSize`. -/
structure Identify where
  cmdBytes : Fin 64 → Byte
  prpBuffer : List Byte

/-- How a call ends. -/
inductive Outcome (α : Type) where
  /-- normal return -/
  | returned (value : α)
  /-- `throw exception()` -/
  | thrown
  /-- behaviour the C++ standard leaves undefined -/
  | undefined
deriving DecidableEq

/-- A memory access made by the decoder. -/
inductive Access where
  /-- `idData[field]` -/
  | tableEntry (field : Nat)
  /-- `(GetROPrpBuffer())[index]` -/
  | bufferByte (index : Nat)
deriving DecidableEq

/-- Result of running a decoder function: how it ended and which table entries
and buffer bytes it touched, in order. -/
structure Run (α : Type) where
  outcome : Outcome α
  accesses : List Access
deriving DecidableEq

/-- Sequencing of two calls: the second runs only when the first returned. -/
def Run.bind {α β : Type} (r : Run α) (f : α → Run β) : Run β :=
  match r.outcome with
  | .returned a => ⟨(f a).outcome, r.accesses ++ (f a).accesses⟩
  | .thrown => ⟨.thrown, r.accesses⟩
  | .undefined => ⟨.undefined, r.accesses⟩

/-- Modelled from the spec: the struct `LBAFormat` returned by `GetLBAFormat` is
declared in a header that is not among the sources; the data model lists its
members as metadata size (`MS`, 16 bits), LBA data size exponent (`LBADS`,
8 bits) and relative performance (`RP`, 8 bits). -/
structure LBAFormat where
  MS : Nat
  LBADS : Nat
  RP : Nat
deriving DecidableEq

/-- The object representation of an unsigned integer on the little-endian
host the tool runs on: its `n` lowest-addressed bytes, least significant
first. -/
def leBytes (v n : Nat) : List Byte :=
  (List.range n).map fun i => (⟨(v / 256 ^ i) % 256, Nat.mod_lt _ (by decide)⟩ : Byte)

namespace Identify

/-! ## Command bytes and the CNS bit -/

/-- The macro `CNS_BITMASK`. -/
def CNS_BITMASK : Nat := 0x01

/-- Modelled from the spec: `Cmd::GetByte(whichDW, dwOffset)` is not among the
sources; the parameter bytes are "addressable by (dwordIndex,
byteOffsetWithinDword)", four bytes to a dword. -/
def GetByte (s : Identify) (whichDW : Fin 16) (dwOffset : Fin 4) : Nat :=
  (s.cmdBytes ⟨4 * whichDW.val + dwOffset.val, by omega⟩).val

/-- Modelled from the spec: `Cmd::SetByte(newVal, whichDW, dwOffset)` is not among
the sources; it stores the `uint8_t` value at that parameter byte and leaves
the rest of the object alone. -/
def SetByte (s : Identify) (newVal : Nat) (whichDW : Fin 16) (dwOffset : Fin 4) :
    Identify :=
  let index : Fin 64 := ⟨4 * whichDW.val + dwOffset.val, by omega⟩
  let byte : Byte := ⟨newVal % 256, Nat.mod_lt _ (by decide)⟩
  { cmdBytes := Function.update s.cmdBytes index byte, prpBuffer := s.prpBuffer }

/-- `Identify::SetCNS`. `~CNS_BITMASK` is the 32-bit complement of the mask;
the assignment back to the `uint8_t curVal` keeps the low 8 bits. -/
def SetCNS (s : Identify) (ctrlr : Bool) : Identify :=
  let curVal := GetByte s 10 0
  let curVal :=
    if ctrlr then (curVal ||| CNS_BITMASK) % 256
    else (curVal &&& (0xFFFFFFFF ^^^ CNS_BITMASK)) % 256
  SetByte s curVal 10 0

/-- `Identify::GetCNS`. -/
def GetCNS (s : Identify) : Bool :=
  let curVal := GetByte s 10 0
  if curVal &&& CNS_BITMASK ≠ 0 then true else false

/-! ## The decoder -/

/-- `GetPrpBufferSize()`. -/
def GetPrpBufferSize (s : Identify) : Nat := s.prpBuffer.length

/-- The `for` loop of `Identify::GetValue(int, IdentifyDataType*)`, entered with
`remaining = length - i` iterations to go:
`byte = buf[offset + i]; value |= (uint64_t)byte << (i*8)`. -/
def GetValue.loop (s : Identify) (offset : Nat) : Nat → Nat → Nat → Run Nat
  | 0, _, value => ⟨.returned value, []⟩
  | remaining + 1, i, value =>
    match s.prpBuffer[offset + i]? with
    | none => ⟨.undefined, [.bufferByte (offset + i)]⟩
    | some byte =>
      let r := GetValue.loop s offset remaining (i + 1)
        (value ||| ((byte.val <<< (i * 8)) % 2 ^ 64))
      ⟨r.outcome, .bufferByte (offset + i) :: r.accesses⟩

/-- `Identify::GetValue(int field, IdentifyDataType *idData)`; `sizeof(uint64_t)`
is 8. -/
def GetValue (s : Identify) (field : Nat) (idData : List IdentifyDataType) : Run Nat :=
  match idData[field]? with
  | none => ⟨.undefined, [.tableEntry field]⟩
  | some e =>
    if e.length > 8 then
      ⟨.thrown, [.tableEntry field]⟩
    else if e.length + e.offset ≥ GetPrpBufferSize s then
      ⟨.thrown, [.tableEntry field]⟩
    else
      let r := GetValue.loop s e.offset e.length 0 0
      ⟨r.outcome, .tableEntry field :: r.accesses⟩

/-- `Identify::GetValue(IdCtrlrCap field)`. -/
def GetValue_IdCtrlrCap (T : IdentifyTables) (s : Identify) (field : Nat) : Run Nat :=
  if field ≥ T.IDCTRLRCAP_FENCE then ⟨.thrown, []⟩
  else GetValue s field T.mIdCtrlrCapMetrics

/-- `Identify::GetValue(IdNamespc field)`. -/
def GetValue_IdNamespc (T : IdentifyTables) (s : Identify) (field : Nat) : Run Nat :=
  if field ≥ T.IDNAMESPC_FENCE then ⟨.thrown, []⟩
  else GetValue s field T.mIdNamespcType

/-! ## The active LBA format -/

/-- Modelled from the spec: `memcpy(&lbaFormat, &work, sizeof(lbaFormat))`. The
declaration of `LBAFormat` is in a header that is not among the sources; the
data model gives it as `metadataSize: u16, lbaDataSizeExponent: u8,
relativePerformance: u8`, four bytes in this order. The copy takes the four
lowest-addressed bytes of the 64-bit `work`. -/
def memcpyLBAFormat (work : Nat) : LBAFormat :=
  let image := leBytes (work % 2 ^ 64) 4
  { MS := (image.getD 0 0).val + 256 * (image.getD 1 0).val
    LBADS := (image.getD 2 0).val
    RP := (image.getD 3 0).val }

/-- `Identify::GetLBAFormat`. The first decode goes through the public
`GetValue(IdNamespc)`, the second through the table decoder directly;
`formatIdx` is a `uint8_t`. -/
def GetLBAFormat (T : IdentifyTables) (s : Identify) : Run LBAFormat :=
  if GetCNS s then ⟨.thrown, []⟩
  else
    (GetValue_IdNamespc T s T.IDNAMESPC_FLBAS).bind fun flbas =>
      let formatIdx := (flbas &&& 0x0f) % 256
      (GetValue s (T.IDNAMESPC_LBAF0 + formatIdx) T.mIdNamespcType).bind fun work =>
        ⟨.returned (memcpyLBAFormat work), []⟩

/-- `Identify::GetLBADataSize`: `(uint64_t)pow(2.0, lbaFormat.LBADS)`. The power
of two is exact in a `double` for every `uint8_t` exponent; its conversion to
`uint64_t` is defined only when the value is below `2 ^ 64`. -/
def GetLBADataSize (T : IdentifyTables) (s : Identify) : Run Nat :=
  (GetLBAFormat T s).bind fun lbaFormat =>
    if 2 ^ lbaFormat.LBADS < 2 ^ 64 then ⟨.returned (2 ^ lbaFormat.LBADS), []⟩
    else ⟨.undefined, []⟩

/-! ## The hex dump of one field -/

/-- What a dumping function did: how it ended and the characters it wrote to
the file, in order. -/
structure Printed where
  outcome : Outcome Unit
  text : List Char
deriving DecidableEq

/-- One upper-case hexadecimal digit, as the `X` conversion of `printf` prints it. -/
def hexDigit (d : Nat) : Char :=
  if d < 10 then Char.ofNat (48 + d) else Char.ofNat (55 + d)

/-- The conversions `%02X` (w = 2, on a `uint8_t`) and `%08X` (w = 8, on a
`uint32_t`): the value has at most `w` hexadecimal digits and is padded with
zeros to exactly `w`, most significant digit first. -/
def hexFixed (w value : Nat) : List Char :=
  (List.range w).reverse.map fun k => hexDigit ((value / 16 ^ k) % 16)

/-- The `for` loop of `Identify::Dump(FILE*, int, IdentifyDataType*)`, entered
with `remaining = dumpLen - j` iterations to go; `addr` is `offset + j` and
`*data++` reads `buf[offset + j]`. `fp` is what has been written to the file,
`output` the pending `std::string`. No `snprintf` result is longer than 14
characters, so `BUF_SIZE` never truncates. -/
def Dump.loop (s : Identify) (offset : Nat) :
    Nat → Nat → List Char → List Char → Outcome (List Char × List Char)
  | 0, _, fp, output => .returned (fp, output)
  | remaining + 1, j, fp, output =>
    match s.prpBuffer[offset + j]? with
    | none => .undefined
    | some byte =>
      if j % 16 = 15 then
        Dump.loop s offset remaining (j + 1)
          (fp ++ (output ++ ([' '] ++ hexFixed 2 byte.val ++ ['\n']))) []
      else if j % 16 = 0 then
        Dump.loop s offset remaining (j + 1) fp
          (output ++ (['0', 'x'] ++ hexFixed 8 ((offset + j) % 2 ^ 32) ++ [':', ' '] ++
            hexFixed 2 byte.val))
      else
        Dump.loop s offset remaining (j + 1) fp (output ++ ([' '] ++ hexFixed 2 byte.val))

/-- `Identify::Dump(FILE *fp, int field, IdentifyDataType *idData)`. The
description is written before the bounds check. -/
def Dump (s : Identify) (field : Nat) (idData : List IdentifyDataType) : Printed :=
  match idData[field]? with
  | none => ⟨.undefined, []⟩
  | some e =>
    let fp := ['\n'] ++ e.desc.data ++ ['\n']
    if e.length + e.offset > GetPrpBufferSize s then
      ⟨.thrown, fp⟩
    else
      match Dump.loop s e.offset e.length 0 fp [] with
      | .returned (fp, output) =>
        if output.length ≠ 0 then ⟨.returned (), fp ++ (output ++ ['\n'])⟩
        else ⟨.returned (), fp⟩
      | .thrown => ⟨.thrown, fp⟩
      | .undefined => ⟨.undefined, fp⟩

/-! ## The dump of all fields, and construction -/

/-- The two static field tables. -/
inductive WhichTable where
  /-- `mIdCtrlrCapMetrics` -/
  | ctrlrCap
  /-- `mIdNamespcType` -/
  | namespc
deriving DecidableEq

/-- What `Identify::Dump(LogFilename, string)` did: how it ended, the characters
it appended to the file, and the calls `Dump(fp, i, table)` it made, in
order. -/
structure DumpedFields where
  outcome : Outcome Unit
  text : List Char
  fields : List (WhichTable × Nat)
deriving DecidableEq

/-- The three `fprintf` calls that precede the field loop. -/
def dumpBanner : List Char :=
  ("\n------------------------------------------------------\n" ++
    "----Detailed decoding of the cmd payload as follows---\n" ++
    "------------------------------------------------------").data

/-- The loop `for (int i = 0; i < FENCE; i++) Dump(fp, i, table)`, entered with
`remaining = FENCE - i` iterations to go. An exception thrown by
`Dump(fp, i, table)` leaves the loop and the function. -/
def Dump_LogFilename.loop (s : Identify) (which : WhichTable)
    (idData : List IdentifyDataType) : Nat → Nat → DumpedFields
  | 0, _ => ⟨.returned (), [], []⟩
  | remaining + 1, i =>
    match (Dump s i idData).outcome with
    | .returned _ =>
      let rest := Dump_LogFilename.loop s which idData remaining (i + 1)
      ⟨rest.outcome, (Dump s i idData).text ++ rest.text, (which, i) :: rest.fields⟩
    | .thrown => ⟨.thrown, (Dump s i idData).text, [(which, i)]⟩
    | .undefined => ⟨.undefined, (Dump s i idData).text, [(which, i)]⟩

/-- `Identify::Dump(LogFilename filename, string fileHdr)`. `Cmd::Dump`, which
writes the file first, belongs to the base class and is taken to return;
`fopenAppend` tells whether `fopen(filename, "a")` gave a stream. The text is
what this function appends. -/
def Dump_LogFilename (T : IdentifyTables) (s : Identify) (fopenAppend : Bool) :
    DumpedFields :=
  if fopenAppend = false then ⟨.thrown, [], []⟩
  else
    let r :=
      if GetCNS s then
        Dump_LogFilename.loop s .ctrlrCap T.mIdCtrlrCapMetrics T.IDCTRLRCAP_FENCE 0
      else
        Dump_LogFilename.loop s .namespc T.mIdNamespcType T.IDNAMESPC_FENCE 0
    ⟨r.outcome, dumpBanner ++ r.text, r.fields⟩

/-- `Identify::Identify(int fd)`: `Init(Opcode, DATADIR_FROM_DEVICE); SetCNS(true)`.
`Cmd::Init` is not among the sources; `initialised` is the object it leaves. -/
def ctor (initialised : Identify) : Identify :=
  SetCNS initialised true

/-! ## Reference definitions

Written from the specification's wording; the theorems compare the code with
them. -/

/-- The little-endian integer formed from the `L` bytes `buffer[O .. O+L-1]`:
the sum over `i < L` of `buffer[O+i] * 256^i`. -/
def littleEndianValue (buffer : List Byte) (O L : Nat) : Nat :=
  ((List.range L).map fun i => (buffer.getD (O + i) 0).val * 256 ^ i).sum

/-- The buffer after writing `bytes` at offset `O`. -/
def writeAt (buffer : List Byte) (O : Nat) (bytes : List Byte) : List Byte :=
  buffer.take O ++ bytes ++ buffer.drop (O + bytes.length)

/-- A line that starts at address `a` and shows `t` bytes, without its final
newline: `0x`, the address as eight upper-case hex digits, a colon and a
space, then the bytes `a .. a+t-1` as two upper-case hex digits each,
separated by single spaces. -/
def lineBody (buffer : List Byte) (a t : Nat) : List Char :=
  ['0', 'x'] ++ hexFixed 8 a ++ [':', ' '] ++
    List.intercalate [' '] ((List.range t).map fun u =>
      hexFixed 2 (buffer.getD (a + u) 0).val)

/-- Line `k` of the listing of a field of length `n` at offset `o`: it starts at
address `o + 16k`, holds the bytes `o+16k .. min(o+16k+15, o+n-1)` and ends
with a newline. -/
def dumpLine (buffer : List Byte) (o n k : Nat) : List Char :=
  lineBody buffer (o + 16 * k) (min 16 (n - 16 * k)) ++ ['\n']

/-- The first `k` lines of a listing that starts at offset `o`, all of them
full (16 bytes each). -/
def fullLines (buffer : List Byte) (o k : Nat) : List Char :=
  ((List.range k).map fun i => lineBody buffer (o + 16 * i) 16 ++ ['\n']).flatten

/-- The listing of a field: a newline, the description, a newline, then
`ceil(n/16)` lines. -/
def dumpListing (desc : String) (buffer : List Byte) (o n : Nat) : List Char :=
  ['\n'] ++ desc.data ++ ['\n'] ++
    ((List.range ((n + 15) / 16)).map (dumpLine buffer o n)).flatten

end Identify

/-! ## The write test: one command through a queue pair

A shallow embedding of `GrpBasicInit/writeDataPat_r10b.cpp`. The queue objects,
the register file and the resource manager are collaborators whose code is
not in that file; what the test reads back from them is given by the
environment (`QueueAnswers`, `TestEnv`). A run is the list of the calls made,
in order; the `LOG_ERR` line in front of each `throw` is kept as an event,
since it tells the throw sites apart.

A collaborator may itself throw (a full submission queue, a log file that
cannot be opened); the file has no `try`, so such an exception ends the run
at that call. `SendToIOSQ_withFaults` embeds the function with these runs;
`SendToIOSQ` is the same function on the runs in which every collaborator
call returns. -/

namespace WriteDataPat_r10b

/-- The two IO queue pairs the test looks up: `iosqContig` / `iocqContig`
(qualifier "contig") and `iosqDiscontig` / `iocqDiscontig` (qualifier
"discontig"). -/
inductive QPair where
  | contig
  | discontig
deriving DecidableEq

/-- Modelled from the spec: the completion entry `union CE` is declared in
`Queues/ce.h`, which is not among the sources; the data model gives it a
command identifier, a composite status field and a phase tag. -/
structure CE where
  commandIdentifier : Nat
  statusCode : Nat
  phaseTag : Bool
deriving DecidableEq

/-- Modelled from the spec: `ProcessCE::Validate(ce)` is not among the sources
(the call is commented "throws upon error"); it "inspects the composite status
field; a non-success status raises", and "a zero status code" is success. It
is given the completion entry and nothing else. -/
def Validate (ce : CE) : Outcome Unit :=
  if ce.statusCode = 0 then .returned () else .thrown

/-- The `LOG_ERR` lines of the file. -/
inductive ErrMsg where
  /-- "Namespace #1 must exist" -/
  | namespaceMustExist
  /-- "Unable to determine Q memory requirements" -/
  | unableToDetermineQMemory
  /-- "Unable to see completion of cmd" -/
  | unableToSeeCompletion
  /-- "The IOCQ should only have 1 CE as a result of a cmd" -/
  | shouldOnlyHaveOneCE
  /-- "Verified there was 1 CE, but reaping produced %d" -/
  | reapingProduced (numReaped : Nat)
deriving DecidableEq

/-- A call made by the test, or an error line it logs. -/
inductive Event where
  /-- `iosq->Send(writeCmd)`; `cmdId` is the identifier the command carries in
  the queue -/
  | send (q : QPair) (cmdId : Nat)
  /-- `iosq->Dump(...)` -/
  | dumpSQ (q : QPair)
  /-- `iosq->Ring()` -/
  | ring (q : QPair)
  /-- `iocq->ReapInquiryWaitSpecify(DEFAULT_CMD_WAIT_ms, expected, numCE, isrCount)` -/
  | wait (q : QPair) (expected : Nat)
  /-- `iocq->Dump(...)` -/
  | dumpCQ (q : QPair)
  /-- `iocq->GetQMetrics()` -/
  | getQMetrics (q : QPair)
  /-- `iocq->Reap(ceRemain, ceMemIOCQ, isrCount, limit, true)` -/
  | reap (q : QPair) (limit : Nat)
  /-- `iocq->LogCE(head_ptr)` -/
  | logCE (q : QPair) (head_ptr : Nat)
  /-- `iocq->PeekCE(head_ptr)` -/
  | peekCE (q : QPair) (head_ptr : Nat)
  /-- `ProcessCE::Validate(ce)` -/
  | validate (ce : CE)
  /-- `gRegisters->Read(CTLSPC_CAP, regVal)` -/
  | readCAP
  /-- `LOG_ERR(...)` -/
  | logErr (msg : ErrMsg)
deriving DecidableEq

/-- What one queue pair answers during a call of `SendToIOSQ`. -/
structure QueueAnswers where
  /-- the identifier under which the submitted command sits in the SQ -/
  cmdId : Nat
  /-- return value of `ReapInquiryWaitSpecify` -/
  waitResult : Bool
  /-- its out-parameter `numCE` (a `uint16_t`) -/
  numCE : Nat
  /-- `GetQMetrics().head_ptr` -/
  head_ptr : Nat
  /-- return value of `Reap` (a `uint16_t`) -/
  numReaped : Nat
  /-- the entry `PeekCE(head_ptr)` gives -/
  ce : CE

/-- What a function of the test did: how it ended and the calls it made. -/
structure DriverRun where
  outcome : Outcome Unit
  events : List Event
deriving DecidableEq

/-- `WriteDataPat_r10b::SendToIOSQ(iosq, iocq, writeCmd, qualifier)`, on the runs
in which every call into the queue objects returns. -/
def SendToIOSQ (q : QPair) (a : QueueAnswers) : DriverRun :=
  let sent : List Event := [.send q a.cmdId, .dumpSQ q, .ring q, .wait q 1]
  if a.waitResult = false then
    ⟨.thrown, sent ++ [.logErr .unableToSeeCompletion, .dumpCQ q]⟩
  else if a.numCE ≠ 1 then
    ⟨.thrown, sent ++ [.logErr .shouldOnlyHaveOneCE]⟩
  else
    let reaping : List Event := sent ++ [.dumpCQ q, .getQMetrics q, .reap q a.numCE]
    if a.numReaped ≠ 1 then
      ⟨.thrown, reaping ++ [.logErr (.reapingProduced a.numReaped)]⟩
    else
      ⟨Validate a.ce,
        reaping ++ [.logCE q a.head_ptr, .peekCE q a.head_ptr, .validate a.ce]⟩

/-- Which calls into the queue objects throw during one call of `SendToIOSQ`
(`true`: the call throws). The queue classes are not among the sources; the
design names a full queue as the failure of the submission. -/
structure CalleeFaults where
  /-- `iosq->Send(writeCmd)` -/
  send : Bool
  /-- `iosq->Dump(FileSystem::PrepLogFile(...), ...)` -/
  dumpSQ : Bool
  /-- `iosq->Ring()` -/
  ring : Bool
  /-- `iocq->ReapInquiryWaitSpecify(...)` -/
  wait : Bool
  /-- `iocq->Dump(FileSystem::PrepLogFile(...), ...)` -/
  dumpCQ : Bool
  /-- `iocq->GetQMetrics()` -/
  getQMetrics : Bool
  /-- `iocq->Reap(...)` -/
  reap : Bool
  /-- `iocq->LogCE(head_ptr)` -/
  logCE : Bool
  /-- `iocq->PeekCE(head_ptr)` -/
  peekCE : Bool
deriving DecidableEq

/-- `WriteDataPat_r10b::SendToIOSQ(iosq, iocq, writeCmd, qualifier)` with the
exceptions of its collaborators: a call that throws is the last event of the
run, since nothing in the function catches. -/
def SendToIOSQ_withFaults (q : QPair) (a : QueueAnswers) (f : CalleeFaults) : DriverRun :=
  if f.send then ⟨.thrown, [.send q a.cmdId]⟩
  else if f.dumpSQ then ⟨.thrown, [.send q a.cmdId, .dumpSQ q]⟩
  else if f.ring then ⟨.thrown, [.send q a.cmdId, .dumpSQ q, .ring q]⟩
  else
    let sent : List Event := [.send q a.cmdId, .dumpSQ q, .ring q, .wait q 1]
    if f.wait then ⟨.thrown, sent⟩
    else if a.waitResult = false then
      ⟨.thrown, sent ++ [.logErr .unableToSeeCompletion, .dumpCQ q]⟩
    else if a.numCE ≠ 1 then
      ⟨.thrown, sent ++ [.logErr .shouldOnlyHaveOneCE]⟩
    else if f.dumpCQ then ⟨.thrown, sent ++ [.dumpCQ q]⟩
    else if f.getQMetrics then ⟨.thrown, sent ++ [.dumpCQ q, .getQMetrics q]⟩
    else
      let reaping : List Event := sent ++ [.dumpCQ q, .getQMetrics q, .reap q a.numCE]
      if f.reap then ⟨.thrown, reaping⟩
      else if a.numReaped ≠ 1 then
        ⟨.thrown, reaping ++ [.logErr (.reapingProduced a.numReaped)]⟩
      else if f.logCE then ⟨.thrown, reaping ++ [.logCE q a.head_ptr]⟩
      else if f.peekCE then
        ⟨.thrown, reaping ++ [.logCE q a.head_ptr, .peekCE q a.head_ptr]⟩
      else
        ⟨Validate a.ce,
          reaping ++ [.logCE q a.head_ptr, .peekCE q a.head_ptr, .validate a.ce]⟩

/-- The surroundings of `WriteDataPattern`. `CAP_CQR` is a macro of a header
that is not among the sources and is a parameter. -/
structure TestEnv where
  /-- the static tables of `Identify` -/
  T : IdentifyTables
  /-- `gInformative->GetIdentifyCmdNamspc(1)`; `none` is `NullIdentifyPtr` -/
  namSpc : Option Identify
  /-- answers of the contiguous queue pair -/
  contig : QueueAnswers
  /-- answers of the discontiguous queue pair -/
  discontig : QueueAnswers
  /-- `gRegisters->Read(CTLSPC_CAP, regVal)`: `none` when it returns false,
  otherwise the 64-bit `regVal` -/
  capRead : Option Nat
  /-- the mask `CAP_CQR` -/
  CAP_CQR : Nat

/-- `WriteDataPat_r10b::WriteDataPattern()`. Building the data pattern and the
write command and looking the queues up are calls into collaborators and
leave no event. -/
def WriteDataPattern (env : TestEnv) : DriverRun :=
  match env.namSpc with
  | none => ⟨.thrown, [.logErr .namespaceMustExist]⟩
  | some namSpcPtr =>
    match (Identify.GetLBADataSize env.T namSpcPtr).outcome with
    | .thrown => ⟨.thrown, []⟩
    | .undefined => ⟨.undefined, []⟩
    | .returned _ =>
      let first := SendToIOSQ .contig env.contig
      match first.outcome with
      | .thrown => ⟨.thrown, first.events⟩
      | .undefined => ⟨.undefined, first.events⟩
      | .returned _ =>
        match env.capRead with
        | none => ⟨.thrown, first.events ++ [.readCAP, .logErr .unableToDetermineQMemory]⟩
        | some regVal =>
          if regVal &&& env.CAP_CQR ≠ 0 then
            ⟨.returned (), first.events ++ [.readCAP]⟩
          else
            let second := SendToIOSQ .discontig env.discontig
            ⟨second.outcome, first.events ++ [.readCAP] ++ second.events⟩

/-- `WriteDataPat_r10b::RunCoreTest()`: `WriteDataPattern(); return true;`. -/
def RunCoreTest (env : TestEnv) : Outcome Bool :=
  match (WriteDataPattern env).outcome with
  | .returned _ => .returned true
  | .thrown => .thrown
  | .undefined => .undefined

end WriteDataPat_r10b

namespace Identify

/-! ## Sample data

A small schema and buffer on which the theorems are instantiated. -/

/-- Two short tables in the shape of `IDCTRLRCAP_TABLE` and `IDNAMESPC_TABLE`. -/
def sampleTables : IdentifyTables where
  mIdCtrlrCapMetrics := [⟨0, 2, "VID"⟩, ⟨2, 2, "SSVID"⟩, ⟨4, 20, "SN"⟩]
  mIdNamespcType := [⟨2, 1, "FLBAS"⟩, ⟨4, 4, "LBAF0"⟩, ⟨8, 4, "LBAF1"⟩, ⟨12, 4, "LBAF2"⟩]
  IDCTRLRCAP_FENCE := 3
  IDNAMESPC_FENCE := 4
  IDNAMESPC_FLBAS := 0
  IDNAMESPC_LBAF0 := 1

/-- A 26-byte data buffer: FLBAS is 0x12, LBAF2 has MS = 8, LBADS = 9, RP = 1. -/
def sampleBuffer : List Byte :=
  [0x86, 0x80, 0x12, 0, 0, 0, 0, 0, 0, 0, 0, 0, 8, 0, 9, 1,
   0, 0xAB, 0xCD, 0xEF, 0x10, 0x11, 0x12, 0x13, 0, 0]

/-- A command in namespace mode (CNS bit clear). -/
def sampleNamespc : Identify := ⟨fun _ => 0, sampleBuffer⟩

/-- A command in controller mode (CNS bit set). -/
def sampleCtrlr : Identify := ⟨fun _ => 1, sampleBuffer⟩

/-- A command whose data buffer has 4 bytes, so that the sample field SSVID
(offset 2, length 2) ends exactly at its last byte. -/
def lastByteCmd : Identify := ⟨fun _ => 0, [0x11, 0x22, 0x33, 0x44]⟩

/-- A command in namespace mode whose active format LBAF0 has LBADS = 64. -/
def hugeBlockCmd : Identify :=
  ⟨fun _ => 0, [0, 0, 0, 0, 0, 0, 64, 0, 0, 0, 0, 0, 0, 0, 0, 0, 0]⟩

/-- A table whose field NSZE fills an 8-byte buffer exactly. -/
def tailTable : List IdentifyDataType := [⟨0, 8, "NSZE"⟩]

/-- A command whose data buffer has 8 bytes. -/
def tailCmd : Identify := ⟨fun _ => 0, [1, 2, 3, 4, 5, 6, 7, 8]⟩

/-- The command object as `Cmd::Init` is taken to leave it in the examples: the
opcode in the first command byte, no data buffer yet. -/
def sampleInitialised : Identify := ⟨fun i => if i.val = 0 then 0x06 else 0, []⟩

end Identify

namespace WriteDataPat_r10b

/-- A queue pair on which everything goes well: one entry seen, one reaped, its
identifier that of the command, its status zero. -/
def goodAnswers : QueueAnswers :=
  { cmdId := 3, waitResult := true, numCE := 1, head_ptr := 0, numReaped := 1,
    ce := ⟨3, 0, true⟩ }

/-- The wait times out. -/
def silentAnswers : QueueAnswers := { goodAnswers with waitResult := false, numCE := 0 }

/-- The wait sees two entries. -/
def wrongCountAnswers : QueueAnswers := { goodAnswers with numCE := 2 }

/-- The reap takes nothing. -/
def reapMismatchAnswers : QueueAnswers := { goodAnswers with numReaped := 0 }

/-- The entry carries a non-zero status. -/
def badStatusAnswers : QueueAnswers := { goodAnswers with ce := ⟨3, 0x0002, true⟩ }

/-- The entry carries the identifier 7, the submitted command 3; the status is
zero. -/
def foreignCidAnswers : QueueAnswers := { goodAnswers with ce := ⟨7, 0, true⟩ }

/-- Every call into the queue objects returns. -/
def noFaults : CalleeFaults :=
  { send := false, dumpSQ := false, ring := false, wait := false, dumpCQ := false,
    getQMetrics := false, reap := false, logCE := false, peekCE := false }

/-- The submission queue is full: `Send` throws. -/
def queueFullFaults : CalleeFaults := { noFaults with send := true }

/-- A device that accepts discontiguous queues (CAP.CQR clear), with bit 16 as
the CQR mask. -/
def sampleEnv : TestEnv :=
  { T := Identify.sampleTables, namSpc := some Identify.sampleNamespc,
    contig := goodAnswers, discontig := goodAnswers,
    capRead := some 0x0000002001000FFF, CAP_CQR := 0x10000 }

/-- A device that requires contiguous queues (CAP.CQR set). -/
def contigOnlyEnv : TestEnv := { sampleEnv with capRead := some 0x0000002001010FFF }

/-- The CAP register cannot be read. -/
def unreadableCapEnv : TestEnv := { sampleEnv with capRead := none }

end WriteDataPat_r10b

namespace Identify

/-! ## Lemmas about the decoder -/

theorem or_shift_eq_add (value b i : Nat) (hv : value < 2 ^ (8 * i)) (hb : b < 256)
    (hi : i < 8) : value ||| ((b <<< (i * 8)) % 2 ^ 64) = value + b * 256 ^ i := by
  have h256 : (256 : Nat) ^ i = 2 ^ (8 * i) := by
    rw [show (256 : Nat) = 2 ^ 8 by norm_num, ← pow_mul]
  have hlt : b * 2 ^ (8 * i) < 2 ^ 64 := by
    calc b * 2 ^ (8 * i) < 256 * 2 ^ (8 * i) := by
          apply Nat.mul_lt_mul_of_pos_right hb (Nat.pow_pos (by norm_num))
      _ = 2 ^ (8 + 8 * i) := by rw [pow_add]; norm_num
      _ ≤ 2 ^ 64 := Nat.pow_le_pow_right (by norm_num) (by omega)
  rw [Nat.shiftLeft_eq, Nat.mul_comm i 8, Nat.mod_eq_of_lt hlt, h256, Nat.lor_comm,
    Nat.mul_comm b, ← Nat.mul_add_lt_is_or hv, Nat.add_comm]

/-- The loop, started at step `i` with an accumulator that holds the bytes
decoded so far, returns the accumulator plus the remaining bytes at their
weights and reads exactly the remaining positions. -/
theorem getValue_loop_eq (s : Identify) (offset : Nat) :
    ∀ (remaining i value : Nat), i + remaining ≤ 8 → value < 2 ^ (8 * i) →
      offset + i + remaining ≤ s.prpBuffer.length →
      GetValue.loop s offset remaining i value =
        ⟨.returned (value + ((List.range remaining).map fun k =>
            (s.prpBuffer.getD (offset + i + k) 0).val * 256 ^ (i + k)).sum),
          (List.range remaining).map fun k => .bufferByte (offset + i + k)⟩ := by
  intro remaining
  induction remaining with
  | zero => intro i value _ _ _; simp [GetValue.loop]
  | succ n ih =>
    intro i value h8 hv hlen
    have hidx : offset + i < s.prpBuffer.length := by omega
    have hb : (s.prpBuffer[offset + i]).val < 256 := (s.prpBuffer[offset + i]).isLt
    have hv2 : value + (s.prpBuffer[offset + i]).val * 256 ^ i < 2 ^ (8 * (i + 1)) := by
      have h256 : (256 : Nat) ^ i = 2 ^ (8 * i) := by
        rw [show (256 : Nat) = 2 ^ 8 by norm_num, ← pow_mul]
      have : 2 ^ (8 * (i + 1)) = 256 * 2 ^ (8 * i) := by
        rw [Nat.mul_add, pow_add]; norm_num; ring
      rw [this, h256]
      nlinarith [Nat.pow_pos (n := 8 * i) (show 0 < 2 by norm_num)]
    rw [GetValue.loop, List.getElem?_eq_getElem hidx]
    simp only
    rw [or_shift_eq_add value _ i hv hb (by omega), ih (i + 1) _ (by omega) hv2 (by omega)]
    simp only [List.range_succ_eq_map, List.map_cons, List.map_map, List.sum_cons,
      List.getD_eq_getElem?_getD, List.getElem?_eq_getElem hidx, Option.getD_some,
      Nat.add_zero, Function.comp_def, Run.mk.injEq, Outcome.returned.injEq]
    refine ⟨?_, ?_⟩
    · simp only [Nat.add_assoc, Nat.add_comm 1]
    · simp only [Nat.add_assoc, Nat.add_comm 1, true_and]

/-- The table decoder in closed form. -/
theorem GetValue_eq (s : Identify) (field : Nat) (idData : List IdentifyDataType)
    (e : IdentifyDataType) (he : idData[field]? = some e) :
    GetValue s field idData =
      if e.length > 8 ∨ e.length + e.offset ≥ GetPrpBufferSize s then
        ⟨.thrown, [.tableEntry field]⟩
      else
        ⟨.returned (littleEndianValue s.prpBuffer e.offset e.length),
          .tableEntry field ::
            (List.range e.length).map fun k => .bufferByte (e.offset + k)⟩ := by
  unfold GetValue
  rw [he]
  simp only [GetPrpBufferSize]
  by_cases h8 : e.length > 8
  · simp [h8]
  · by_cases hb : e.length + e.offset ≥ s.prpBuffer.length
    · simp [h8, hb]
    · have := getValue_loop_eq s e.offset e.length 0 0 (by omega) (by norm_num) (by omega)
      simp only [h8, hb, if_false, or_self, this, littleEndianValue, Nat.zero_add,
        Nat.add_zero]

theorem length_writeAt (buffer : List Byte) (O : Nat) (bytes : List Byte)
    (h : O + bytes.length ≤ buffer.length) :
    (writeAt buffer O bytes).length = buffer.length := by
  simp [writeAt]; omega

theorem getD_writeAt (buffer : List Byte) (O : Nat) (bytes : List Byte) (i : Nat)
    (h : O ≤ buffer.length) (hi : i < bytes.length) :
    (writeAt buffer O bytes).getD (O + i) 0 = bytes.getD i 0 := by
  have h1 : (buffer.take O).length = O := by simp [h]
  simp only [writeAt, List.getD_eq_getElem?_getD, List.append_assoc]
  rw [List.getElem?_append_right (by omega), h1, Nat.add_sub_cancel_left,
    List.getElem?_append_left hi]

theorem sum_leBytes (v : Nat) : ∀ L : Nat,
    ((List.range L).map fun i => ((v / 256 ^ i) % 256) * 256 ^ i).sum = v % 256 ^ L := by
  intro L
  induction L with
  | zero => simp [Nat.mod_one]
  | succ n ih =>
    rw [List.range_succ, List.map_append, List.sum_append, ih, Nat.mod_pow_succ]
    simp [Nat.mul_comm]

theorem littleEndianValue_writeAt (buffer : List Byte) (O L v : Nat)
    (h : O + L ≤ buffer.length) :
    littleEndianValue (writeAt buffer O (leBytes v L)) O L = v % 256 ^ L := by
  rw [← sum_leBytes, littleEndianValue]
  congr 1
  apply List.map_congr_left
  intro i hi
  have hi2 : i < L := List.mem_range.mp hi
  rw [getD_writeAt buffer O _ i (by omega) (by simpa [leBytes] using hi2)]
  simp [leBytes, List.getD_eq_getElem?_getD, hi2]

theorem length_leBytes (v L : Nat) : (leBytes v L).length = L := by
  simp [leBytes]

/-! ## Lemmas about the mode bit and the LBA format -/

theorem getValue_loop_congr (s t : Identify) (h : s.prpBuffer = t.prpBuffer) (offset : Nat) :
    ∀ remaining i value,
      GetValue.loop s offset remaining i value = GetValue.loop t offset remaining i value := by
  intro remaining
  induction remaining with
  | zero => intro i value; simp [GetValue.loop]
  | succ n ih => intro i value; simp only [GetValue.loop, h, ih]

/-- The table decoder reads nothing of the command but its data buffer. -/
theorem GetValue_congr (s t : Identify) (h : s.prpBuffer = t.prpBuffer) (field : Nat)
    (idData : List IdentifyDataType) : GetValue s field idData = GetValue t field idData := by
  simp only [GetValue, GetPrpBufferSize, h, getValue_loop_congr s t h]

theorem prpBuffer_SetCNS (s : Identify) (b : Bool) : (SetCNS s b).prpBuffer = s.prpBuffer := rfl

set_option maxRecDepth 100000 in
theorem cns_bit_facts : ∀ x : Fin 256,
    (((x.val ||| 1) % 256) % 256) &&& 1 ≠ 0 ∧
    (((x.val &&& (0xFFFFFFFF ^^^ 1)) % 256) % 256) &&& 1 = 0 := by
  decide

theorem GetCNS_SetCNS (s : Identify) (b : Bool) : GetCNS (SetCNS s b) = b := by
  have hx := cns_bit_facts (s.cmdBytes ⟨40, by decide⟩)
  cases b
  · simp only [GetCNS, SetCNS, GetByte, SetByte, CNS_BITMASK, Function.update_same]
    simpa using hx.2
  · simp only [GetCNS, SetCNS, GetByte, SetByte, CNS_BITMASK, Function.update_same]
    simpa using hx.1

theorem and_0x0f (flbas : Nat) : (flbas &&& 0x0f) % 256 = flbas % 16 := by
  have h := Nat.and_pow_two_sub_one_eq_mod flbas 4
  norm_num at h
  rw [h]
  omega

theorem memcpyLBAFormat_fields (w : Nat) :
    (memcpyLBAFormat w).MS = w % 2 ^ 16 ∧ (memcpyLBAFormat w).LBADS = (w / 2 ^ 16) % 2 ^ 8 := by
  simp only [memcpyLBAFormat, leBytes]
  norm_num [List.range_succ, List.getD_eq_getElem?_getD]
  omega

/-- `GetLBAFormat` in namespace mode, in terms of its two decodes. -/
theorem GetLBAFormat_of_decodes (T : IdentifyTables) (s : Identify) (hC : GetCNS s = false)
    (flbas w : Nat)
    (h1 : (GetValue_IdNamespc T s T.IDNAMESPC_FLBAS).outcome = .returned flbas)
    (h2 : (GetValue s (T.IDNAMESPC_LBAF0 + flbas % 16) T.mIdNamespcType).outcome =
      .returned w) :
    (GetLBAFormat T s).outcome = .returned (memcpyLBAFormat w) := by
  simp only [GetLBAFormat, hC, Bool.false_eq_true, if_false, Run.bind, h1, and_0x0f, h2]

/-! ## Lemmas about the hex dump -/

theorem intercalate_concat {α : Type} (sep : List α) (l : List (List α)) (x : List α)
    (h : l ≠ []) : List.intercalate sep (l ++ [x]) = List.intercalate sep l ++ (sep ++ x) := by
  induction l with
  | nil => exact absurd rfl h
  | cons a l ih =>
    cases l with
    | nil => simp [List.intercalate, List.intersperse]
    | cons b l2 =>
      have ih2 := ih (by simp)
      simp only [List.intercalate, List.cons_append, List.intersperse, List.flatten_cons,
        List.append_assoc, List.append_eq] at ih2 ⊢
      rw [ih2]

theorem lineBody_one (buffer : List Byte) (a : Nat) :
    lineBody buffer a 1 =
      ['0', 'x'] ++ hexFixed 8 a ++ [':', ' '] ++ hexFixed 2 (buffer.getD a 0).val := by
  simp [lineBody, List.intercalate, List.range_succ, List.intersperse]

theorem lineBody_succ (buffer : List Byte) (a t : Nat) (ht : 0 < t) :
    lineBody buffer a (t + 1) =
      lineBody buffer a t ++ ([' '] ++ hexFixed 2 (buffer.getD (a + t) 0).val) := by
  simp only [lineBody, List.range_succ, List.map_append, List.map_cons, List.map_nil]
  rw [intercalate_concat _ _ _ (by
    intro h
    have := congrArg List.length h
    simp at this
    omega)]
  simp only [List.append_assoc]

theorem lineBody_ne_nil (buffer : List Byte) (a t : Nat) : (lineBody buffer a t).length ≠ 0 := by
  simp [lineBody]

theorem fullLines_succ (buffer : List Byte) (o k : Nat) :
    fullLines buffer o (k + 1) =
      fullLines buffer o k ++ (lineBody buffer (o + 16 * k) 16 ++ ['\n']) := by
  simp [fullLines, List.range_succ]

/-- The dump loop, entered at byte `j = 16k + t` with `k` full lines written and
the first `t` bytes of line `k` pending, ends with all full lines written and
the bytes of the last, incomplete line pending. -/
theorem dump_loop_eq (s : Identify) (o : Nat) (hdr : List Char) :
    ∀ (remaining k t : Nat) (fp output : List Char), t < 16 →
      o + (16 * k + t) + remaining ≤ s.prpBuffer.length →
      o + (16 * k + t) + remaining ≤ 2 ^ 32 →
      fp = hdr ++ fullLines s.prpBuffer o k →
      output = (if t = 0 then [] else lineBody s.prpBuffer (o + 16 * k) t) →
      Dump.loop s o remaining (16 * k + t) fp output = .returned
        (hdr ++ fullLines s.prpBuffer o ((16 * k + t + remaining) / 16),
         if (16 * k + t + remaining) % 16 = 0 then []
         else lineBody s.prpBuffer (o + 16 * ((16 * k + t + remaining) / 16))
           ((16 * k + t + remaining) % 16)) := by
  intro remaining
  induction remaining with
  | zero =>
    intro k t fp output ht _ _ hfp hout
    have h1 : (16 * k + t + 0) / 16 = k := by omega
    have h2 : (16 * k + t + 0) % 16 = t := by omega
    rw [Dump.loop, h1, h2, hfp, hout]
  | succ n ih =>
    intro k t fp output ht hlen h32 hfp hout
    have hidx : o + (16 * k + t) < s.prpBuffer.length := by omega
    have hget : s.prpBuffer.getD (o + 16 * k + t) 0 = s.prpBuffer[o + (16 * k + t)] := by
      have e0 : o + 16 * k + t = o + (16 * k + t) := by omega
      rw [e0, List.getD_eq_getElem?_getD, List.getElem?_eq_getElem hidx]
      rfl
    rw [Dump.loop, List.getElem?_eq_getElem hidx]
    simp only
    by_cases h15 : t = 15
    · have hm : (16 * k + t) % 16 = 15 := by omega
      rw [if_pos hm]
      have e1 : 16 * k + t + 1 = 16 * (k + 1) + 0 := by omega
      have e2 : 16 * k + t + (n + 1) = 16 * (k + 1) + 0 + n := by omega
      rw [e1, e2]
      apply ih (k + 1) 0 _ _ (by omega) (by omega) (by omega)
      · subst h15
        rw [fullLines_succ, lineBody_succ _ _ 15 (by omega), hget, hfp, hout, if_neg (by omega)]
        simp only [List.append_assoc]
      · simp
    · have hm : ¬ (16 * k + t) % 16 = 15 := by omega
      rw [if_neg hm]
      have e1 : 16 * k + t + 1 = 16 * k + (t + 1) := by omega
      have e2 : 16 * k + t + (n + 1) = 16 * k + (t + 1) + n := by omega
      by_cases h0 : t = 0
      · have hm0 : (16 * k + t) % 16 = 0 := by omega
        rw [if_pos hm0, e1, e2]
        apply ih k (t + 1) _ _ (by omega) (by omega) (by omega) hfp
        subst h0
        have hmod : (o + (16 * k + 0)) % 2 ^ 32 = o + 16 * k := by
          rw [Nat.mod_eq_of_lt (by omega)]; omega
        have hget0 : s.prpBuffer.getD (o + 16 * k) 0 = s.prpBuffer[o + (16 * k + 0)] := by
          simpa using hget
        rw [hout, if_pos rfl, if_neg (by omega), lineBody_one, hmod, hget0]
        simp
      · have hm0 : ¬ (16 * k + t) % 16 = 0 := by omega
        rw [if_neg hm0, e1, e2]
        apply ih k (t + 1) _ _ (by omega) (by omega) (by omega) hfp
        rw [hout, if_neg h0, if_neg (by omega), lineBody_succ _ _ t (by omega), hget]

/-! ## Lemmas about the dump of all fields -/

theorem dump_loop_congr (s t : Identify) (h : s.prpBuffer = t.prpBuffer) (offset : Nat) :
    ∀ (remaining j : Nat) (fp output : List Char),
      Dump.loop s offset remaining j fp output = Dump.loop t offset remaining j fp output := by
  intro remaining
  induction remaining with
  | zero => intro j fp output; simp [Dump.loop]
  | succ n ih => intro j fp output; simp only [Dump.loop, h, ih]

/-- The dump of a field reads nothing of the command but its data buffer. -/
theorem Dump_congr (s t : Identify) (h : s.prpBuffer = t.prpBuffer) (field : Nat)
    (idData : List IdentifyDataType) : Dump s field idData = Dump t field idData := by
  simp only [Dump, GetPrpBufferSize, h, dump_loop_congr s t h]

theorem dump_loop_returns (s : Identify) (offset : Nat) :
    ∀ (remaining j : Nat) (fp output : List Char),
      offset + j + remaining ≤ s.prpBuffer.length →
      ∃ p, Dump.loop s offset remaining j fp output = .returned p := by
  intro remaining
  induction remaining with
  | zero => intro j fp output _; exact ⟨_, rfl⟩
  | succ n ih =>
    intro j fp output hlen
    have hidx : offset + j < s.prpBuffer.length := by omega
    rw [Dump.loop, List.getElem?_eq_getElem hidx]
    simp only
    split
    · exact ih _ _ _ (by omega)
    · split
      · exact ih _ _ _ (by omega)
      · exact ih _ _ _ (by omega)

/-- The dump of a field that lies within the buffer returns. -/
theorem Dump_returns (s : Identify) (field : Nat) (idData : List IdentifyDataType)
    (e : IdentifyDataType) (he : idData[field]? = some e)
    (hin : e.offset + e.length ≤ GetPrpBufferSize s) :
    (Dump s field idData).outcome = .returned () := by
  simp only [GetPrpBufferSize] at hin
  obtain ⟨p, hp⟩ := dump_loop_returns s e.offset e.length 0
    (['\n'] ++ e.desc.data ++ ['\n']) [] (by omega)
  unfold Dump
  rw [he]
  simp only [GetPrpBufferSize]
  rw [if_neg (by omega), hp]
  simp only
  split <;> rfl

/-- The dump of a field that reaches beyond the buffer throws. -/
theorem Dump_throws (s : Identify) (field : Nat) (idData : List IdentifyDataType)
    (e : IdentifyDataType) (he : idData[field]? = some e)
    (hout : e.offset + e.length > GetPrpBufferSize s) :
    (Dump s field idData).outcome = .thrown := by
  unfold Dump
  rw [he]
  simp only
  rw [if_pos (by omega)]

theorem dump_LogFilename_loop_eq (s : Identify) (which : WhichTable)
    (idData : List IdentifyDataType) :
    ∀ (remaining i : Nat),
      (∀ k, k < remaining → (Dump s (i + k) idData).outcome = .returned ()) →
      Dump_LogFilename.loop s which idData remaining i =
        ⟨.returned (),
         ((List.range remaining).map fun k => (Dump s (i + k) idData).text).flatten,
         (List.range remaining).map fun k => (which, i + k)⟩ := by
  intro remaining
  induction remaining with
  | zero => intro i _; simp [Dump_LogFilename.loop]
  | succ n ih =>
    intro i h
    have h0 := h 0 (by omega)
    rw [Nat.add_zero] at h0
    have hrest := ih (i + 1) (fun k hk => by
      have := h (k + 1) (by omega)
      rwa [show i + (k + 1) = i + 1 + k by omega] at this)
    rw [Dump_LogFilename.loop, h0]
    simp only [hrest, List.range_succ_eq_map, List.map_cons, List.map_map, List.flatten_cons,
      Nat.add_zero, Function.comp_def]
    simp only [Nat.add_assoc, Nat.add_comm 1]

set_option maxRecDepth 100000 in
theorem cns_frame_facts : ∀ x : Fin 256,
    ((x.val ||| 1) % 256) % 256 / 2 = x.val / 2 ∧
    ((x.val &&& (0xFFFFFFFF ^^^ 1)) % 256) % 256 / 2 = x.val / 2 := by
  decide

theorem GetByte_SetCNS_half (s : Identify) (b : Bool) :
    GetByte (SetCNS s b) 10 0 / 2 = GetByte s 10 0 / 2 := by
  have hx := cns_frame_facts (s.cmdBytes ⟨40, by decide⟩)
  cases b
  · simp only [SetCNS, GetByte, SetByte, CNS_BITMASK, Function.update_same]
    simpa using hx.2
  · simp only [SetCNS, GetByte, SetByte, CNS_BITMASK, Function.update_same]
    simpa using hx.1

theorem GetLBAFormat_thrown (T : IdentifyTables) (s : Identify) (hC : GetCNS s = true) :
    GetLBAFormat T s = ⟨.thrown, []⟩ ∧ GetLBADataSize T s = ⟨.thrown, []⟩ := by
  have h : GetLBAFormat T s = ⟨.thrown, []⟩ := by simp [GetLBAFormat, hC]
  exact ⟨h, by simp [GetLBADataSize, h, Run.bind]⟩

/-! ## The claims -/

/-- C1: for a table entry of length L at most 8 at offset O, every value that
`GetValue` returns is the little-endian integer of the bytes
`buffer[O .. O+L-1]` (and it does return it whenever `O + L` is below the
buffer size); writing the L little-endian bytes of any `v < 2^(8L)` at `O` and
decoding gives back exactly `v`. -/
theorem getValue_little_endian_round_trip (s : Identify) (field : Nat)
    (idData : List IdentifyDataType) (e : IdentifyDataType)
    (he : idData[field]? = some e) (hL8 : e.length ≤ 8) :
    (∀ val, (GetValue s field idData).outcome = .returned val →
      val = littleEndianValue s.prpBuffer e.offset e.length) ∧
    (e.offset + e.length < GetPrpBufferSize s →
      (GetValue s field idData).outcome =
        .returned (littleEndianValue s.prpBuffer e.offset e.length)) ∧
    (∀ v, v < 2 ^ (8 * e.length) → e.offset + e.length ≤ GetPrpBufferSize s →
      ∀ val, (GetValue ⟨s.cmdBytes, writeAt s.prpBuffer e.offset (leBytes v e.length)⟩
        field idData).outcome = .returned val → val = v) ∧
    (∀ v, v < 2 ^ (8 * e.length) → e.offset + e.length < GetPrpBufferSize s →
      (GetValue ⟨s.cmdBytes, writeAt s.prpBuffer e.offset (leBytes v e.length)⟩
        field idData).outcome = .returned v) := by
  have hpow : ∀ v, v < 2 ^ (8 * e.length) → v % 256 ^ e.length = v := by
    intro v hv
    apply Nat.mod_eq_of_lt
    rwa [show (256 : Nat) = 2 ^ 8 by norm_num, ← pow_mul]
  have hwr : ∀ v, e.offset + e.length ≤ GetPrpBufferSize s →
      GetPrpBufferSize ⟨s.cmdBytes, writeAt s.prpBuffer e.offset (leBytes v e.length)⟩ =
        GetPrpBufferSize s := by
    intro v h
    simp only [GetPrpBufferSize] at h ⊢
    exact length_writeAt _ _ _ (by rw [length_leBytes]; exact h)
  refine ⟨?_, ?_, ?_, ?_⟩
  · intro val h
    rw [GetValue_eq s field idData e he] at h
    split at h
    · simp at h
    · simpa using h.symm
  · intro h
    rw [GetValue_eq s field idData e he, if_neg (by omega)]
  · intro v hv hle val h
    rw [GetValue_eq _ field idData e he] at h
    split at h
    · simp at h
    · simp only [Outcome.returned.injEq] at h
      rw [← h, littleEndianValue_writeAt _ _ _ _ hle, hpow v hv]
  · intro v hv hlt
    rw [GetValue_eq _ field idData e he, hwr v (by omega), if_neg (by omega)]
    simp only
    rw [littleEndianValue_writeAt _ _ _ _ (by simp only [GetPrpBufferSize] at hlt; omega),
      hpow v hv]

/-- On the sample namespace command, LBAF2 (offset 12, length 4) decodes to
0x01090008, and 0xDEADBEEF written there decodes to itself. -/
theorem getValue_little_endian_round_trip_witness :
    sampleTables.mIdNamespcType[3]? = some ⟨12, 4, "LBAF2"⟩ ∧
    (GetValue sampleNamespc 3 sampleTables.mIdNamespcType).outcome = .returned 0x01090008 ∧
    (GetValue ⟨sampleNamespc.cmdBytes, writeAt sampleBuffer 12 (leBytes 0xDEADBEEF 4)⟩ 3
      sampleTables.mIdNamespcType).outcome = .returned 0xDEADBEEF :=
  ⟨by decide,
   (getValue_little_endian_round_trip sampleNamespc 3 sampleTables.mIdNamespcType
      ⟨12, 4, "LBAF2"⟩ (by decide) (by decide)).2.1 (by decide),
   (getValue_little_endian_round_trip sampleNamespc 3 sampleTables.mIdNamespcType
      ⟨12, 4, "LBAF2"⟩ (by decide) (by decide)).2.2.2 0xDEADBEEF
      (by decide) (by decide)⟩


/-- C2: at a field that ends exactly at the last byte of the buffer (SSVID,
offset 2, length 2, in a 4-byte buffer: `offset + length = buffer size`) the
public `GetValue` throws, because the bounds test of the table decoder is
`>=`; `Dump`, whose test is `>`, accepts the same field and lists its bytes. -/
theorem getValue_throws_at_last_byte :
    sampleTables.mIdCtrlrCapMetrics[1]? = some ⟨2, 2, "SSVID"⟩ ∧
    1 < sampleTables.IDCTRLRCAP_FENCE ∧
    2 + 2 = GetPrpBufferSize lastByteCmd ∧
    GetValue_IdCtrlrCap sampleTables lastByteCmd 1 = ⟨.thrown, [.tableEntry 1]⟩ ∧
    Dump lastByteCmd 1 sampleTables.mIdCtrlrCapMetrics =
      ⟨.returned (), "\nSSVID\n0x00000002: 33 44\n".data⟩ := by
  decide

/-- C3: for a table entry whose length is above 8 or whose offset + length is
above the buffer size, `GetValue` throws, returns no value and reads no
buffer byte; and no call of `GetValue` on a table entry ever reads a buffer
byte at an index at or beyond the buffer size. -/
theorem getValue_schema_violation_throws (s : Identify) (field : Nat)
    (idData : List IdentifyDataType) (e : IdentifyDataType)
    (he : idData[field]? = some e) :
    ((e.length > 8 ∨ e.offset + e.length > GetPrpBufferSize s) →
      GetValue s field idData = ⟨.thrown, [.tableEntry field]⟩) ∧
    (∀ index, Access.bufferByte index ∈ (GetValue s field idData).accesses →
      index < GetPrpBufferSize s) := by
  rw [GetValue_eq s field idData e he]
  refine ⟨?_, ?_⟩
  · intro h
    rw [if_pos (by omega)]
  · intro index h
    split at h
    · simp at h
    · rename_i hok
      simp only [List.mem_cons, List.mem_map, List.mem_range, Access.bufferByte.injEq,
        false_or] at h
      obtain ⟨k, hk, rfl⟩ := h
      omega

/-- On the sample command, the 20-byte field SN is refused, and the read of byte 3
for SSVID lies inside the 26-byte buffer. -/
theorem getValue_schema_violation_throws_witness :
    sampleTables.mIdCtrlrCapMetrics[2]? = some ⟨4, 20, "SN"⟩ ∧
    GetValue sampleCtrlr 2 sampleTables.mIdCtrlrCapMetrics = ⟨.thrown, [.tableEntry 2]⟩ ∧
    (Access.bufferByte 3 ∈ (GetValue sampleCtrlr 1 sampleTables.mIdCtrlrCapMetrics).accesses ∧
      3 < GetPrpBufferSize sampleCtrlr) :=
  ⟨by decide,
   (getValue_schema_violation_throws sampleCtrlr 2 sampleTables.mIdCtrlrCapMetrics
      ⟨4, 20, "SN"⟩ (by decide)).1 (by decide),
   by decide,
   (getValue_schema_violation_throws sampleCtrlr 1 sampleTables.mIdCtrlrCapMetrics
      ⟨2, 2, "SSVID"⟩ (by decide)).2 3 (by decide)⟩

/-- C4: the public `GetValue` overloads throw, with no table entry and no
buffer byte accessed, for every field id at or above the fence of their
table, and forward every id below the fence unchanged to the table decoder. -/
theorem getValue_fence_check (T : IdentifyTables) (s : Identify) (field : Nat) :
    (field ≥ T.IDCTRLRCAP_FENCE → GetValue_IdCtrlrCap T s field = ⟨.thrown, []⟩) ∧
    (field ≥ T.IDNAMESPC_FENCE → GetValue_IdNamespc T s field = ⟨.thrown, []⟩) ∧
    (field < T.IDCTRLRCAP_FENCE →
      GetValue_IdCtrlrCap T s field = GetValue s field T.mIdCtrlrCapMetrics) ∧
    (field < T.IDNAMESPC_FENCE →
      GetValue_IdNamespc T s field = GetValue s field T.mIdNamespcType) := by
  refine ⟨?_, ?_, ?_, ?_⟩
  · intro h; simp [GetValue_IdCtrlrCap, h]
  · intro h; simp [GetValue_IdNamespc, h]
  · intro h; simp [GetValue_IdCtrlrCap, Nat.not_le.mpr h]
  · intro h; simp [GetValue_IdNamespc, Nat.not_le.mpr h]

/-- On the sample tables, controller id 3 is at the fence and is refused; namespace
id 2 is forwarded. -/
theorem getValue_fence_check_witness :
    GetValue_IdCtrlrCap sampleTables sampleCtrlr 3 = ⟨.thrown, []⟩ ∧
    GetValue_IdNamespc sampleTables sampleCtrlr 2 =
      GetValue sampleCtrlr 2 sampleTables.mIdNamespcType :=
  ⟨(getValue_fence_check sampleTables sampleCtrlr 3).1 (by decide),
   (getValue_fence_check sampleTables sampleCtrlr 2).2.2.2 (by decide)⟩


/-- C5 (as stated, refuted): with the CNS bit clear, a controller field id is
decoded with the controller table (0x8086), not with the namespace table
(0x12); with the CNS bit set, a namespace field id is decoded with the
namespace table, not with the controller table. -/
theorem getValue_mode_dispatch_counterexample :
    GetCNS sampleNamespc = false ∧
    (GetValue_IdCtrlrCap sampleTables sampleNamespc 0).outcome = .returned 0x8086 ∧
    (GetValue sampleNamespc 0 sampleTables.mIdNamespcType).outcome = .returned 0x12 ∧
    GetValue_IdCtrlrCap sampleTables sampleNamespc 0 ≠
      GetValue sampleNamespc 0 sampleTables.mIdNamespcType ∧
    GetCNS sampleCtrlr = true ∧
    (GetValue_IdNamespc sampleTables sampleCtrlr 0).outcome = .returned 0x12 ∧
    (GetValue sampleCtrlr 0 sampleTables.mIdCtrlrCapMetrics).outcome = .returned 0x8086 ∧
    GetValue_IdNamespc sampleTables sampleCtrlr 0 ≠
      GetValue sampleCtrlr 0 sampleTables.mIdCtrlrCapMetrics := by
  decide

/-- C5 (amended): `GetValue` dispatches on the type of the field id, not on the
CNS mode: whichever value the CNS bit is set to, a controller field id below
its fence is decoded with the controller table and a namespace field id below
its fence with the namespace table. -/
theorem getValue_dispatch_by_field_type (T : IdentifyTables) (s : Identify) (field : Nat)
    (b : Bool) :
    GetCNS (SetCNS s b) = b ∧
    (field < T.IDCTRLRCAP_FENCE →
      GetValue_IdCtrlrCap T (SetCNS s b) field = GetValue s field T.mIdCtrlrCapMetrics) ∧
    (field < T.IDNAMESPC_FENCE →
      GetValue_IdNamespc T (SetCNS s b) field = GetValue s field T.mIdNamespcType) := by
  refine ⟨GetCNS_SetCNS s b, ?_, ?_⟩
  · intro h
    simp only [GetValue_IdCtrlrCap, ge_iff_le, Nat.not_le.mpr h, if_false]
    exact GetValue_congr _ _ (prpBuffer_SetCNS s b) _ _
  · intro h
    simp only [GetValue_IdNamespc, ge_iff_le, Nat.not_le.mpr h, if_false]
    exact GetValue_congr _ _ (prpBuffer_SetCNS s b) _ _

/-- On the sample commands, field id 0 is decoded with the table of its own type
after the mode has been switched either way. -/
theorem getValue_dispatch_by_field_type_witness :
    GetCNS (SetCNS sampleCtrlr false) = false ∧
    GetValue_IdCtrlrCap sampleTables (SetCNS sampleCtrlr false) 0 =
      GetValue sampleCtrlr 0 sampleTables.mIdCtrlrCapMetrics ∧
    GetValue_IdNamespc sampleTables (SetCNS sampleNamespc true) 0 =
      GetValue sampleNamespc 0 sampleTables.mIdNamespcType :=
  ⟨(getValue_dispatch_by_field_type sampleTables sampleCtrlr 0 false).1,
   (getValue_dispatch_by_field_type sampleTables sampleCtrlr 0 false).2.1 (by decide),
   (getValue_dispatch_by_field_type sampleTables sampleNamespc 0 true).2.2 (by decide)⟩

/-- C6: on a command with `GetCNS() = true`, `GetLBAFormat` throws without
touching a table entry or a buffer byte; after `SetCNS(false)` on that same
command it returns an `LBAFormat`, provided the FLBAS entry and the selected
LBAF entry pass the decoder's bounds tests on the buffer. -/
theorem getLBAFormat_mode_gating (T : IdentifyTables) (s : Identify)
    (hC : GetCNS s = true) :
    GetLBAFormat T s = ⟨.thrown, []⟩ ∧
    (∀ eF eL : IdentifyDataType,
      T.IDNAMESPC_FLBAS < T.IDNAMESPC_FENCE →
      T.mIdNamespcType[T.IDNAMESPC_FLBAS]? = some eF →
      eF.length ≤ 8 → eF.length + eF.offset < GetPrpBufferSize s →
      T.mIdNamespcType[T.IDNAMESPC_LBAF0 +
        littleEndianValue s.prpBuffer eF.offset eF.length % 16]? = some eL →
      eL.length ≤ 8 → eL.length + eL.offset < GetPrpBufferSize s →
      (GetLBAFormat T (SetCNS s false)).outcome =
        .returned (memcpyLBAFormat (littleEndianValue s.prpBuffer eL.offset eL.length))) := by
  refine ⟨by simp [GetLBAFormat, hC], ?_⟩
  intro eF eL hfence heF hF8 hFb heL hL8 hLb
  have hbuf := prpBuffer_SetCNS s false
  apply GetLBAFormat_of_decodes T _ (GetCNS_SetCNS s false)
    (littleEndianValue s.prpBuffer eF.offset eF.length)
  · simp only [GetValue_IdNamespc, ge_iff_le, Nat.not_le.mpr hfence, if_false]
    rw [GetValue_congr _ s hbuf, GetValue_eq s _ _ eF heF, if_neg (by omega)]
  · rw [GetValue_congr _ s hbuf, GetValue_eq s _ _ eL heL, if_neg (by omega)]

/-- On the sample controller-mode command the call throws; after `SetCNS(false)`
it returns MS = 8, LBADS = 9, RP = 1. -/
theorem getLBAFormat_mode_gating_witness :
    GetCNS sampleCtrlr = true ∧
    GetLBAFormat sampleTables sampleCtrlr = ⟨.thrown, []⟩ ∧
    (GetLBAFormat sampleTables (SetCNS sampleCtrlr false)).outcome = .returned ⟨8, 9, 1⟩ :=
  ⟨by decide,
   (getLBAFormat_mode_gating sampleTables sampleCtrlr (by decide)).1,
   (getLBAFormat_mode_gating sampleTables sampleCtrlr (by decide)).2
      ⟨2, 1, "FLBAS"⟩ ⟨12, 4, "LBAF2"⟩ (by decide) (by decide) (by decide) (by decide)
      (by decide) (by decide) (by decide)⟩

/-- C7: in namespace mode, when FLBAS decodes to `flbas` and the namespace-table
entry `IDNAMESPC_LBAF0 + flbas mod 16` decodes to `w`, `GetLBAFormat` returns
the format with `MS = w mod 2^16` and `LBADS = (w / 2^16) mod 2^8`; FLBAS
enters only through `flbas mod 16`. -/
theorem getLBAFormat_two_stage_decode (T : IdentifyTables) (s : Identify)
    (hC : GetCNS s = false) (flbas w : Nat)
    (h1 : (GetValue_IdNamespc T s T.IDNAMESPC_FLBAS).outcome = .returned flbas)
    (h2 : (GetValue s (T.IDNAMESPC_LBAF0 + flbas % 16) T.mIdNamespcType).outcome =
      .returned w) :
    ∃ f : LBAFormat, (GetLBAFormat T s).outcome = .returned f ∧
      f.MS = w % 2 ^ 16 ∧ f.LBADS = (w / 2 ^ 16) % 2 ^ 8 :=
  ⟨memcpyLBAFormat w, GetLBAFormat_of_decodes T s hC flbas w h1 h2,
    (memcpyLBAFormat_fields w).1, (memcpyLBAFormat_fields w).2⟩

/-- On the sample namespace command FLBAS is 0x12, which selects LBAF2. -/
theorem getLBAFormat_two_stage_decode_witness :
    GetCNS sampleNamespc = false ∧
    (GetValue_IdNamespc sampleTables sampleNamespc sampleTables.IDNAMESPC_FLBAS).outcome =
      .returned 0x12 ∧
    (GetValue sampleNamespc (sampleTables.IDNAMESPC_LBAF0 + 0x12 % 16)
      sampleTables.mIdNamespcType).outcome = .returned 0x01090008 ∧
    ∃ f : LBAFormat, (GetLBAFormat sampleTables sampleNamespc).outcome = .returned f ∧
      f.MS = 0x01090008 % 2 ^ 16 ∧ f.LBADS = (0x01090008 / 2 ^ 16) % 2 ^ 8 :=
  ⟨by decide, by decide, by decide,
   getLBAFormat_two_stage_decode sampleTables sampleNamespc (by decide) 0x12 0x01090008
     (by decide) (by decide)⟩


/-- C8 (as stated, refuted): the active format of `hugeBlockCmd` has LBADS = 64,
an exponent the 8-bit field can hold, and `GetLBADataSize` does not return
`2 ^ 64`; its result type has 64 bits. -/
theorem getLBADataSize_counterexample :
    (GetLBAFormat sampleTables hugeBlockCmd).outcome = .returned ⟨0, 64, 0⟩ ∧
    (GetLBADataSize sampleTables hugeBlockCmd).outcome ≠ .returned (2 ^ 64) ∧
    (GetLBADataSize sampleTables hugeBlockCmd).outcome = .undefined := by
  decide

/-- C8 (amended): when the active format's exponent LBADS is at most 63,
`GetLBADataSize` returns exactly `2 ^ LBADS`; in particular, with FLBAS low
nibble 2 and LBAF2 exponent 9 it returns 512. -/
theorem getLBADataSize_power_of_two (T : IdentifyTables) (s : Identify) :
    (∀ f : LBAFormat, (GetLBAFormat T s).outcome = .returned f → f.LBADS ≤ 63 →
      (GetLBADataSize T s).outcome = .returned (2 ^ f.LBADS)) ∧
    (∀ flbas w : Nat, GetCNS s = false →
      (GetValue_IdNamespc T s T.IDNAMESPC_FLBAS).outcome = .returned flbas →
      flbas % 16 = 2 →
      (GetValue s (T.IDNAMESPC_LBAF0 + 2) T.mIdNamespcType).outcome = .returned w →
      (w / 2 ^ 16) % 2 ^ 8 = 9 →
      (GetLBADataSize T s).outcome = .returned 512) := by
  have key : ∀ f : LBAFormat, (GetLBAFormat T s).outcome = .returned f → f.LBADS ≤ 63 →
      (GetLBADataSize T s).outcome = .returned (2 ^ f.LBADS) := by
    intro f hf h63
    have hlt : 2 ^ f.LBADS < 2 ^ 64 := Nat.pow_lt_pow_right (by norm_num) (by omega)
    simp only [GetLBADataSize, Run.bind, hf, hlt, if_true]
  refine ⟨key, ?_⟩
  intro flbas w hC h1 hnib h2 hexp
  have hf := GetLBAFormat_of_decodes T s hC flbas w h1 (by rw [hnib]; exact h2)
  have h9 : (memcpyLBAFormat w).LBADS = 9 := by rw [(memcpyLBAFormat_fields w).2, hexp]
  have := key _ hf (by omega)
  rw [h9] at this
  simpa using this

/-- On the sample namespace command the block size is 512. -/
theorem getLBADataSize_power_of_two_witness :
    (GetLBAFormat sampleTables sampleNamespc).outcome = .returned ⟨8, 9, 1⟩ ∧
    (GetLBADataSize sampleTables sampleNamespc).outcome = .returned (2 ^ 9) ∧
    (GetValue_IdNamespc sampleTables sampleNamespc sampleTables.IDNAMESPC_FLBAS).outcome =
      .returned 0x12 ∧
    (GetLBADataSize sampleTables sampleNamespc).outcome = .returned 512 :=
  ⟨by decide,
   (getLBADataSize_power_of_two sampleTables sampleNamespc).1 ⟨8, 9, 1⟩ (by decide)
     (by decide),
   by decide,
   (getLBADataSize_power_of_two sampleTables sampleNamespc).2 0x12 0x01090008 (by decide)
     (by decide) (by decide) (by decide) (by decide)⟩

/-- C9: for every command state and every boolean `b`, `GetCNS()` after
`SetCNS(b)` returns `b`, whatever the parameter bytes held before. -/
theorem cns_set_get_round_trip (s : Identify) (b : Bool) : GetCNS (SetCNS s b) = b :=
  GetCNS_SetCNS s b


/-- C10: for a field of length n at offset o that lies within the buffer (of at
most 2^32 bytes), `Dump` returns after writing a newline, the description, a
newline and then exactly ceil(n/16) lines; line k shows the bytes
`o+16k .. min(o+16k+15, o+n-1)`, starts with `0x`, the address `o+16k` as
eight upper-case hex digits, a colon and a space, prints each byte as two
upper-case hex digits with single spaces between them, and ends with a
newline. -/
theorem dump_field_listing (s : Identify) (field : Nat) (idData : List IdentifyDataType)
    (e : IdentifyDataType) (he : idData[field]? = some e)
    (hin : e.offset + e.length ≤ GetPrpBufferSize s) (h32 : GetPrpBufferSize s ≤ 2 ^ 32) :
    Dump s field idData =
      ⟨.returned (), dumpListing e.desc s.prpBuffer e.offset e.length⟩ := by
  simp only [GetPrpBufferSize] at hin h32
  have hloop := dump_loop_eq s e.offset (['\n'] ++ e.desc.data ++ ['\n']) e.length 0 0
    (['\n'] ++ e.desc.data ++ ['\n']) [] (by omega) (by omega) (by omega)
    (by simp [fullLines]) (by simp)
  simp only [Nat.mul_zero, Nat.add_zero, Nat.zero_add] at hloop
  unfold Dump
  rw [he]
  simp only [GetPrpBufferSize]
  rw [if_neg (by omega), hloop]
  simp only
  have hfull : ∀ k, k ≤ e.length / 16 →
      ((List.range k).map (dumpLine s.prpBuffer e.offset e.length)).flatten =
        fullLines s.prpBuffer e.offset k := by
    intro k hk
    unfold fullLines
    congr 1
    apply List.map_congr_left
    intro i hi
    have hi2 : i < k := List.mem_range.mp hi
    have hmin : min 16 (e.length - 16 * i) = 16 := by omega
    rw [dumpLine, hmin]
  by_cases hz : e.length % 16 = 0
  · have hc : (e.length + 15) / 16 = e.length / 16 := by omega
    rw [if_pos hz]
    simp only [List.length_nil, ne_eq, not_true_eq_false, if_false, dumpListing, hc,
      hfull _ (le_refl _)]
  · have hc : (e.length + 15) / 16 = e.length / 16 + 1 := by omega
    have hmin : min 16 (e.length - 16 * (e.length / 16)) = e.length % 16 := by omega
    rw [if_neg hz, if_pos (lineBody_ne_nil _ _ _)]
    simp only [dumpListing, hc, List.range_succ, List.map_append, List.flatten_append,
      hfull _ (le_refl _), List.map_cons, List.map_nil, List.flatten_cons, List.flatten_nil,
      List.append_nil, dumpLine, hmin, List.append_assoc]

/-- On the sample command, the 20-byte field SN is listed on two lines. -/
theorem dump_field_listing_witness :
    sampleTables.mIdCtrlrCapMetrics[2]? = some ⟨4, 20, "SN"⟩ ∧
    4 + 20 ≤ GetPrpBufferSize sampleNamespc ∧
    Dump sampleNamespc 2 sampleTables.mIdCtrlrCapMetrics =
      ⟨.returned (), dumpListing "SN" sampleBuffer 4 20⟩ ∧
    dumpListing "SN" sampleBuffer 4 20 =
      ("\nSN\n0x00000004: 00 00 00 00 00 00 00 00 08 00 09 01 00 AB CD EF\n" ++
        "0x00000014: 10 11 12 13\n").data :=
  ⟨by decide, by decide,
   dump_field_listing sampleNamespc 2 sampleTables.mIdCtrlrCapMetrics ⟨4, 20, "SN"⟩
     (by decide) (by decide) (by decide),
   by decide⟩


/-- C11: the rendering of a field is a function of the table entry and the
buffer bytes only: two commands whose buffers have identical contents, asked
for table entries that are equal, produce the same outcome and byte-identical
text, whatever else differs between the commands or the tables. -/
theorem dump_deterministic (s t : Identify) (field field2 : Nat)
    (idData idData2 : List IdentifyDataType)
    (hbuf : s.prpBuffer = t.prpBuffer) (hentry : idData[field]? = idData2[field2]?) :
    Dump s field idData = Dump t field2 idData2 := by
  rw [Dump_congr s t hbuf]
  simp only [Dump, hentry]

/-- The sample commands in namespace and in controller mode share their buffer;
SSVID is entry 1 of the sample controller table and entry 0 of a table of its
own. -/
theorem dump_deterministic_witness :
    sampleNamespc.prpBuffer = sampleCtrlr.prpBuffer ∧
    sampleTables.mIdCtrlrCapMetrics[1]? = [(⟨2, 2, "SSVID"⟩ : IdentifyDataType)][0]? ∧
    Dump sampleNamespc 1 sampleTables.mIdCtrlrCapMetrics =
      Dump sampleCtrlr 0 [⟨2, 2, "SSVID"⟩] :=
  ⟨by decide, by decide,
   dump_deterministic sampleNamespc sampleCtrlr 1 0 sampleTables.mIdCtrlrCapMetrics
     [⟨2, 2, "SSVID"⟩] (by decide) (by decide)⟩

set_option maxRecDepth 100000 in
/-- C12 (as stated, refuted): in namespace mode with a 4-byte buffer the dump
of all fields throws at field 1 (LBAF0, offset 4, length 4); fields 2 and 3
of the active table are never rendered. -/
theorem dump_all_fields_counterexample :
    GetCNS lastByteCmd = false ∧
    sampleTables.IDNAMESPC_FENCE = 4 ∧
    (Dump_LogFilename sampleTables lastByteCmd true).outcome = .thrown ∧
    (Dump_LogFilename sampleTables lastByteCmd true).fields =
      [(.namespc, 0), (.namespc, 1)] ∧
    (Dump_LogFilename sampleTables lastByteCmd true).text =
      dumpBanner ++ "\nFLBAS\n0x00000002: 33\n\nLBAF0\n".data := by
  decide

/-- C12 (amended): when the file opens for appending and every field of the
active table lies within the data buffer, the dump returns after rendering
every field of the active table exactly once and in increasing field-id
order: ids 0 .. IDCTRLRCAP_FENCE-1 of the controller table when `GetCNS()` is
true, ids 0 .. IDNAMESPC_FENCE-1 of the namespace table when it is false, and
no field of the other table. -/
theorem dump_all_fields_in_order (T : IdentifyTables) (s : Identify) :
    (GetCNS s = true →
      (∀ i, i < T.IDCTRLRCAP_FENCE → ∃ e, T.mIdCtrlrCapMetrics[i]? = some e ∧
        e.offset + e.length ≤ GetPrpBufferSize s) →
      Dump_LogFilename T s true =
        ⟨.returned (),
         dumpBanner ++ ((List.range T.IDCTRLRCAP_FENCE).map fun i =>
           (Dump s i T.mIdCtrlrCapMetrics).text).flatten,
         (List.range T.IDCTRLRCAP_FENCE).map fun i => (.ctrlrCap, i)⟩) ∧
    (GetCNS s = false →
      (∀ i, i < T.IDNAMESPC_FENCE → ∃ e, T.mIdNamespcType[i]? = some e ∧
        e.offset + e.length ≤ GetPrpBufferSize s) →
      Dump_LogFilename T s true =
        ⟨.returned (),
         dumpBanner ++ ((List.range T.IDNAMESPC_FENCE).map fun i =>
           (Dump s i T.mIdNamespcType).text).flatten,
         (List.range T.IDNAMESPC_FENCE).map fun i => (.namespc, i)⟩) := by
  refine ⟨?_, ?_⟩
  · intro hC hin
    have hl := dump_LogFilename_loop_eq s .ctrlrCap T.mIdCtrlrCapMetrics T.IDCTRLRCAP_FENCE 0
      (fun k hk => by
        obtain ⟨e, he, hb⟩ := hin k hk
        rw [Nat.zero_add]
        exact Dump_returns s k _ e he hb)
    simp only [Nat.zero_add] at hl
    simp only [Dump_LogFilename, hC, if_true, hl, Bool.true_eq_false, if_false]
  · intro hC hin
    have hl := dump_LogFilename_loop_eq s .namespc T.mIdNamespcType T.IDNAMESPC_FENCE 0
      (fun k hk => by
        obtain ⟨e, he, hb⟩ := hin k hk
        rw [Nat.zero_add]
        exact Dump_returns s k _ e he hb)
    simp only [Nat.zero_add] at hl
    simp only [Dump_LogFilename, hC, hl, Bool.true_eq_false, Bool.false_eq_true, if_false]

/-- On the sample commands every field of either sample table lies within the
26-byte buffer: controller mode lists fields 0, 1, 2 of the controller table,
namespace mode fields 0, 1, 2, 3 of the namespace table. -/
theorem dump_all_fields_in_order_witness :
    GetCNS sampleCtrlr = true ∧ GetCNS sampleNamespc = false ∧
    (Dump_LogFilename sampleTables sampleCtrlr true).outcome = .returned () ∧
    (Dump_LogFilename sampleTables sampleCtrlr true).fields =
      [(.ctrlrCap, 0), (.ctrlrCap, 1), (.ctrlrCap, 2)] ∧
    (Dump_LogFilename sampleTables sampleNamespc true).fields =
      [(.namespc, 0), (.namespc, 1), (.namespc, 2), (.namespc, 3)] :=
  ⟨by decide, by decide,
   congrArg DumpedFields.outcome ((dump_all_fields_in_order sampleTables sampleCtrlr).1
     (by decide) (by decide)),
   congrArg DumpedFields.fields ((dump_all_fields_in_order sampleTables sampleCtrlr).1
     (by decide) (by decide)),
   congrArg DumpedFields.fields ((dump_all_fields_in_order sampleTables sampleNamespc).2
     (by decide) (by decide))⟩


/-- C15: `SetCNS(b)` leaves every parameter byte other than (dword 10, byte 0)
unchanged, leaves bits 1..7 of that byte unchanged, and leaves the data buffer
alone; only bit 0 of that byte may differ. -/
theorem setCNS_changes_only_cns_bit (s : Identify) (b : Bool) :
    (∀ (whichDW : Fin 16) (dwOffset : Fin 4), ¬ (whichDW = 10 ∧ dwOffset = 0) →
      GetByte (SetCNS s b) whichDW dwOffset = GetByte s whichDW dwOffset) ∧
    (∀ k, 1 ≤ k →
      (GetByte (SetCNS s b) 10 0).testBit k = (GetByte s 10 0).testBit k) ∧
    (SetCNS s b).prpBuffer = s.prpBuffer := by
  refine ⟨?_, ?_, rfl⟩
  · intro whichDW dwOffset hne
    have hidx : (⟨4 * whichDW.val + dwOffset.val, by omega⟩ : Fin 64) ≠ ⟨40, by decide⟩ := by
      intro h
      have h40 : 4 * whichDW.val + dwOffset.val = 40 := congrArg Fin.val h
      apply hne
      constructor
      · apply Fin.ext; show whichDW.val = 10; omega
      · apply Fin.ext; show dwOffset.val = 0; omega
    simp only [SetCNS, SetByte, GetByte]
    rw [Function.update_noteq]
    exact hidx
  · intro k hk
    obtain ⟨j, rfl⟩ : ∃ j, k = j + 1 := ⟨k - 1, by omega⟩
    rw [Nat.testBit_succ, Nat.testBit_succ, GetByte_SetCNS_half]

/-- On a command whose parameter byte (dword 10, byte 0) is 1, `SetCNS(false)`
keeps byte (10, 1) and bit 3 of byte (10, 0). -/
theorem setCNS_changes_only_cns_bit_witness :
    GetByte (SetCNS sampleCtrlr false) 10 1 = GetByte sampleCtrlr 10 1 ∧
    (GetByte (SetCNS sampleCtrlr false) 10 0).testBit 3 =
      (GetByte sampleCtrlr 10 0).testBit 3 :=
  ⟨(setCNS_changes_only_cns_bit sampleCtrlr false).1 10 1 (by decide),
   (setCNS_changes_only_cns_bit sampleCtrlr false).2.1 3 (by decide)⟩

/-- C19: for the field NSZE (offset 0, length 8) in a buffer of exactly 8 bytes
the bounds test of `Dump` passes and the field is listed, while the bounds
test of `GetValue` fails and the call throws. -/
theorem dump_accepts_getValue_rejects :
    tailTable[0]? = some ⟨0, 8, "NSZE"⟩ ∧
    0 + 8 = GetPrpBufferSize tailCmd ∧
    Dump tailCmd 0 tailTable =
      ⟨.returned (), "\nNSZE\n0x00000000: 01 02 03 04 05 06 07 08\n".data⟩ ∧
    GetValue tailCmd 0 tailTable = ⟨.thrown, [.tableEntry 0]⟩ := by
  decide

/-- C20: a freshly constructed `Identify` command is in controller mode:
`GetCNS()` returns true, and `GetLBAFormat()` and `GetLBADataSize()` throw on
it and on every later state of it in which the CNS bit is still set;
`SetCNS(false)` clears the bit. -/
theorem fresh_identify_is_controller_mode (T : IdentifyTables) (initialised : Identify) :
    GetCNS (ctor initialised) = true ∧
    GetLBAFormat T (ctor initialised) = ⟨.thrown, []⟩ ∧
    GetLBADataSize T (ctor initialised) = ⟨.thrown, []⟩ ∧
    (∀ s : Identify, s.cmdBytes = (ctor initialised).cmdBytes →
      GetLBAFormat T s = ⟨.thrown, []⟩ ∧ GetLBADataSize T s = ⟨.thrown, []⟩) ∧
    GetCNS (SetCNS (ctor initialised) false) = false := by
  have hC : GetCNS (ctor initialised) = true := GetCNS_SetCNS initialised true
  refine ⟨hC, (GetLBAFormat_thrown T _ hC).1, (GetLBAFormat_thrown T _ hC).2, ?_,
    GetCNS_SetCNS _ false⟩
  intro s hs
  apply GetLBAFormat_thrown
  have : GetCNS s = GetCNS (ctor initialised) := by
    simp only [GetCNS, GetByte, hs]
  rw [this, hC]

/-- On a command constructed over the sample initial object, also after a data
buffer has been attached. -/
theorem fresh_identify_is_controller_mode_witness :
    GetCNS (ctor sampleInitialised) = true ∧
    GetLBAFormat sampleTables (ctor sampleInitialised) = ⟨.thrown, []⟩ ∧
    GetLBADataSize sampleTables ⟨(ctor sampleInitialised).cmdBytes, sampleBuffer⟩ =
      ⟨.thrown, []⟩ :=
  ⟨(fresh_identify_is_controller_mode sampleTables sampleInitialised).1,
   (fresh_identify_is_controller_mode sampleTables sampleInitialised).2.1,
   ((fresh_identify_is_controller_mode sampleTables sampleInitialised).2.2.2.1
      ⟨(ctor sampleInitialised).cmdBytes, sampleBuffer⟩ rfl).2⟩


end Identify

namespace WriteDataPat_r10b

/-! ## Lemmas about the write test -/

/-- Every run of `SendToIOSQ` starts by submitting the command on its own queue
pair and submits nothing afterwards. -/
theorem sendToIOSQ_events_cons (q : QPair) (a : QueueAnswers) :
    ∃ rest, (SendToIOSQ q a).events = Event.send q a.cmdId :: rest ∧
      ∀ q2 id, Event.send q2 id ∉ rest := by
  cases hw : a.waitResult
  · exact ⟨_, by simp [SendToIOSQ, hw]; rfl, by simp⟩
  · by_cases h1 : a.numCE = 1
    · by_cases h2 : a.numReaped = 1
      · exact ⟨_, by simp [SendToIOSQ, hw, h1, h2]; rfl, by simp⟩
      · exact ⟨_, by simp [SendToIOSQ, hw, h1, h2]; rfl, by simp⟩
    · exact ⟨_, by simp [SendToIOSQ, hw, h1]; rfl, by simp⟩

theorem sendToIOSQ_outcome (q : QPair) (a : QueueAnswers) :
    (SendToIOSQ q a).outcome = .returned () ∨ (SendToIOSQ q a).outcome = .thrown := by
  cases hw : a.waitResult
  · simp [SendToIOSQ, hw]
  · by_cases h1 : a.numCE = 1
    · by_cases h2 : a.numReaped = 1
      · by_cases h3 : a.ce.statusCode = 0
        · simp [SendToIOSQ, hw, h1, h2, Validate, h3]
        · simp [SendToIOSQ, hw, h1, h2, Validate, h3]
      · simp [SendToIOSQ, hw, h1, h2]
    · simp [SendToIOSQ, hw, h1]


/-- The gating block of `WriteDataPattern`, reached once namespace 1 is known
and its LBA data size has been computed. -/
theorem writeDataPattern_prepared (env : TestEnv) (namSpcPtr : Identify)
    (lbaDataSize : Nat) (hns : env.namSpc = some namSpcPtr)
    (hsz : (Identify.GetLBADataSize env.T namSpcPtr).outcome = .returned lbaDataSize) :
    (∃ rest, (WriteDataPattern env).events = Event.send .contig env.contig.cmdId :: rest) ∧
    ((∃ id, Event.send .discontig id ∈ (WriteDataPattern env).events) ↔
      ((SendToIOSQ .contig env.contig).outcome = .returned () ∧
        ∃ regVal, env.capRead = some regVal ∧ regVal &&& env.CAP_CQR = 0)) ∧
    ((SendToIOSQ .contig env.contig).outcome = .returned () → env.capRead = none →
      (WriteDataPattern env).outcome = .thrown) ∧
    ((SendToIOSQ .contig env.contig).outcome = .returned () →
      ∀ regVal, env.capRead = some regVal → regVal &&& env.CAP_CQR ≠ 0 →
        (WriteDataPattern env).outcome = .returned () ∧
        RunCoreTest env = .returned true ∧
        ∀ id, Event.send .discontig id ∉ (WriteDataPattern env).events) := by
  obtain ⟨rest1, he1, hn1⟩ := sendToIOSQ_events_cons .contig env.contig
  obtain ⟨rest2, he2, _⟩ := sendToIOSQ_events_cons .discontig env.discontig
  have hne : ∀ id, Event.send .discontig id ∉ (SendToIOSQ .contig env.contig).events := by
    intro id
    rw [he1]
    simp only [List.mem_cons, not_or]
    exact ⟨by simp, hn1 _ _⟩
  rcases sendToIOSQ_outcome .contig env.contig with h1 | h1
  · cases hc : env.capRead with
    | none =>
      have hrun : WriteDataPattern env =
          ⟨.thrown, (SendToIOSQ .contig env.contig).events ++
            [.readCAP, .logErr .unableToDetermineQMemory]⟩ := by
        simp only [WriteDataPattern, hns, hsz, h1, hc]
      rw [hrun]
      refine ⟨⟨_, by rw [he1]; rfl⟩, ?_, ?_, ?_⟩
      · simp [hne, hc]
      · intro _ _; rfl
      · intro _ regVal hr; simp at hr
    | some regVal =>
      by_cases hq : regVal &&& env.CAP_CQR = 0
      · have hrun : WriteDataPattern env =
            ⟨(SendToIOSQ .discontig env.discontig).outcome,
              (SendToIOSQ .contig env.contig).events ++ [.readCAP] ++
                (SendToIOSQ .discontig env.discontig).events⟩ := by
          simp only [WriteDataPattern, hns, hsz, h1, hc, hq, ne_eq, not_true_eq_false,
            if_false]
        rw [hrun]
        refine ⟨⟨_, by rw [he1]; rfl⟩, ?_, ?_, ?_⟩
        · simp only [h1, hc, Option.some.injEq, exists_eq_left', hq, and_self, iff_true]
          exact ⟨env.discontig.cmdId, by rw [he2]; simp⟩
        · intro _ hr; simp [hc] at hr
        · intro _ r hr hr2
          simp only [hc, Option.some.injEq] at hr
          subst hr
          exact absurd hq hr2
      · have hrun : WriteDataPattern env =
            ⟨.returned (), (SendToIOSQ .contig env.contig).events ++ [.readCAP]⟩ := by
          simp only [WriteDataPattern, hns, hsz, h1, hc, hq, ne_eq, not_false_eq_true,
            if_true]
        have hcore : RunCoreTest env = .returned true := by
          simp only [RunCoreTest, hrun]
        rw [hrun]
        refine ⟨⟨_, by rw [he1]; rfl⟩, ?_, ?_, ?_⟩
        · simp [hne, hc, hq]
        · intro _ hr; simp [hc] at hr
        · intro _ r _ _
          exact ⟨rfl, hcore, by simp [hne]⟩
  · have hrun : WriteDataPattern env = ⟨.thrown, (SendToIOSQ .contig env.contig).events⟩ := by
      simp only [WriteDataPattern, hns, hsz, h1]
    rw [hrun]
    refine ⟨⟨_, by rw [he1]⟩, ?_, ?_, ?_⟩
    · simp [hne, h1]
    · intro hr; simp [h1] at hr
    · intro hr; simp [h1] at hr

/-! ## The claims about the write test -/

/-- C13: `SendToIOSQ` returns normally if and only if the wait reports success
with exactly 1 entry observed, the reap returns exactly 1 and validation of
the entry does not throw; in every other case it throws; and the wrong-count
failure leaves through its own throw site, marked by its own error line,
which is neither that of the nothing-observed failure nor that of the
reap-mismatch failure. -/
theorem sendToIOSQ_returns_iff (q : QPair) (a : QueueAnswers) :
    ((SendToIOSQ q a).outcome = .returned () ↔
      (a.waitResult = true ∧ a.numCE = 1 ∧ a.numReaped = 1 ∧
        Validate a.ce = .returned ())) ∧
    ((SendToIOSQ q a).outcome ≠ .returned () → (SendToIOSQ q a).outcome = .thrown) ∧
    (a.waitResult = false →
      Event.logErr .unableToSeeCompletion ∈ (SendToIOSQ q a).events ∧
      Event.logErr .shouldOnlyHaveOneCE ∉ (SendToIOSQ q a).events) ∧
    (a.waitResult = true → a.numCE ≠ 1 →
      Event.logErr .shouldOnlyHaveOneCE ∈ (SendToIOSQ q a).events ∧
      Event.logErr .unableToSeeCompletion ∉ (SendToIOSQ q a).events ∧
      ∀ n, Event.logErr (.reapingProduced n) ∉ (SendToIOSQ q a).events) ∧
    (a.waitResult = true → a.numCE = 1 → a.numReaped ≠ 1 →
      Event.logErr (.reapingProduced a.numReaped) ∈ (SendToIOSQ q a).events ∧
      Event.logErr .shouldOnlyHaveOneCE ∉ (SendToIOSQ q a).events) := by
  cases hw : a.waitResult
  · simp [SendToIOSQ, hw]
  · by_cases h1 : a.numCE = 1
    · by_cases h2 : a.numReaped = 1
      · by_cases h3 : a.ce.statusCode = 0
        · simp [SendToIOSQ, hw, h1, h2, Validate, h3]
        · simp [SendToIOSQ, hw, h1, h2, Validate, h3]
      · simp [SendToIOSQ, hw, h1, h2]
    · simp [SendToIOSQ, hw, h1]

/-- The five sample queue pairs: one success and the four failures. -/
theorem sendToIOSQ_returns_iff_witness :
    (SendToIOSQ .contig goodAnswers).outcome = .returned () ∧
    (SendToIOSQ .contig badStatusAnswers).outcome = .thrown ∧
    Event.logErr .unableToSeeCompletion ∈ (SendToIOSQ .contig silentAnswers).events ∧
    Event.logErr .shouldOnlyHaveOneCE ∈ (SendToIOSQ .contig wrongCountAnswers).events ∧
    Event.logErr (.reapingProduced 0) ∈ (SendToIOSQ .contig reapMismatchAnswers).events :=
  ⟨(sendToIOSQ_returns_iff .contig goodAnswers).1.mpr (by decide),
   (sendToIOSQ_returns_iff .contig badStatusAnswers).2.1 (by decide),
   ((sendToIOSQ_returns_iff .contig silentAnswers).2.2.1 (by decide)).1,
   ((sendToIOSQ_returns_iff .contig wrongCountAnswers).2.2.2.1 (by decide) (by decide)).1,
   ((sendToIOSQ_returns_iff .contig reapMismatchAnswers).2.2.2.2 (by decide) (by decide)
      (by decide)).1⟩

/-- C14 (as stated, refuted): on a queue pair whose completion entry carries the
identifier 7 while the submitted command carries 3, with status zero,
`SendToIOSQ` completes normally. -/
theorem sendToIOSQ_foreign_cid_counterexample :
    (SendToIOSQ .contig foreignCidAnswers).outcome = .returned () ∧
    (SendToIOSQ .contig foreignCidAnswers).events =
      [.send .contig 3, .dumpSQ .contig, .ring .contig, .wait .contig 1, .dumpCQ .contig,
       .getQMetrics .contig, .reap .contig 1, .logCE .contig 0, .peekCE .contig 0,
       .validate ⟨7, 0, true⟩] ∧
    foreignCidAnswers.ce.commandIdentifier ≠ foreignCidAnswers.cmdId := by
  decide

/-- C14 (amended): whenever `SendToIOSQ` completes normally, exactly one entry
was observed by the wait, exactly one was reaped, and the entry at the head
of the completion queue passed the status validation; the outcome does not
depend on the identifier of the submitted command or on the identifier in the
entry. -/
theorem sendToIOSQ_success_checks_status_only (q : QPair) (a : QueueAnswers) :
    ((SendToIOSQ q a).outcome = .returned () →
      a.waitResult = true ∧ a.numCE = 1 ∧ a.numReaped = 1 ∧
      Validate a.ce = .returned () ∧ a.ce.statusCode = 0 ∧
      Event.validate a.ce ∈ (SendToIOSQ q a).events) ∧
    (∀ cmdId ceId : Nat,
      (SendToIOSQ q
          { a with cmdId := cmdId, ce := { a.ce with commandIdentifier := ceId } }).outcome =
        (SendToIOSQ q a).outcome) := by
  cases hw : a.waitResult
  · simp [SendToIOSQ, hw]
  · by_cases h1 : a.numCE = 1
    · by_cases h2 : a.numReaped = 1
      · by_cases h3 : a.ce.statusCode = 0
        · simp [SendToIOSQ, hw, h1, h2, Validate, h3]
        · simp [SendToIOSQ, hw, h1, h2, Validate, h3]
      · simp [SendToIOSQ, hw, h1, h2]
    · simp [SendToIOSQ, hw, h1]

/-- On the good sample queue pair, and on the same pair with other
identifiers. -/
theorem sendToIOSQ_success_checks_status_only_witness :
    (SendToIOSQ .contig goodAnswers).outcome = .returned () ∧
    goodAnswers.numCE = 1 ∧ goodAnswers.numReaped = 1 ∧ goodAnswers.ce.statusCode = 0 ∧
    (SendToIOSQ .contig
      { goodAnswers with cmdId := 11, ce := { goodAnswers.ce with commandIdentifier := 12 } }
      ).outcome = .returned () :=
  ⟨by decide,
   ((sendToIOSQ_success_checks_status_only .contig goodAnswers).1 (by decide)).2.1,
   ((sendToIOSQ_success_checks_status_only .contig goodAnswers).1 (by decide)).2.2.1,
   ((sendToIOSQ_success_checks_status_only .contig goodAnswers).1 (by decide)).2.2.2.2.1,
   ((sendToIOSQ_success_checks_status_only .contig goodAnswers).2 11 12).trans (by decide)⟩

/-- C16: when the wait succeeds but reports 2 entries, `SendToIOSQ` throws after
the doorbell has been rung and without any dump of the completion queue; on
the three other failure paths the completion queue has been dumped. -/
theorem sendToIOSQ_wrong_count_without_cq_dump :
    (SendToIOSQ .contig wrongCountAnswers).outcome = .thrown ∧
    (SendToIOSQ .contig wrongCountAnswers).events =
      [.send .contig 3, .dumpSQ .contig, .ring .contig, .wait .contig 1,
       .logErr .shouldOnlyHaveOneCE] ∧
    Event.dumpCQ .contig ∉ (SendToIOSQ .contig wrongCountAnswers).events ∧
    Event.dumpCQ .contig ∈ (SendToIOSQ .contig silentAnswers).events ∧
    Event.dumpCQ .contig ∈ (SendToIOSQ .contig reapMismatchAnswers).events ∧
    Event.dumpCQ .contig ∈ (SendToIOSQ .contig badStatusAnswers).events := by
  decide

/-- When every call into the queue objects returns, the run begins with the
submission, the dump of the SQ, the ring and the wait with an expected count
of 1, in this order; what follows contains no further submission, ring or
wait, and contains a reap only when the wait succeeded and observed exactly
1 entry. -/
theorem sendToIOSQ_one_submit_one_ring (q : QPair) (a : QueueAnswers) :
    ∃ rest, (SendToIOSQ q a).events =
        [.send q a.cmdId, .dumpSQ q, .ring q, .wait q 1] ++ rest ∧
      (∀ q2 id, Event.send q2 id ∉ rest) ∧
      (∀ q2, Event.ring q2 ∉ rest) ∧
      (∀ q2 n, Event.wait q2 n ∉ rest) ∧
      (∀ q2 n, Event.reap q2 n ∈ rest → a.waitResult = true ∧ a.numCE = 1) := by
  cases hw : a.waitResult
  · exact ⟨_, by simp [SendToIOSQ, hw]; rfl, by simp⟩
  · by_cases h1 : a.numCE = 1
    · by_cases h2 : a.numReaped = 1
      · exact ⟨_, by simp [SendToIOSQ, hw, h1, h2]; rfl, by simp [h1]⟩
      · exact ⟨_, by simp [SendToIOSQ, hw, h1, h2]; rfl, by simp [h1]⟩
    · exact ⟨_, by simp [SendToIOSQ, hw, h1]; rfl, by simp⟩
/-- C17: in every run of `WriteDataPattern` a submission on the discontiguous
pair is preceded by the submission on the contiguous pair, which comes
first. Once namespace 1 is known and its LBA data size has been computed,
the write command is sent on the contiguous pair first; it is then sent on
the discontiguous pair if and only if the contiguous transaction succeeded,
the CAP register read succeeded and the CQR bit is clear; a failed register
read throws, and a set CQR bit ends the test normally with no submission on
the discontiguous pair. -/
theorem writeDataPattern_queue_gating (env : TestEnv) :
    (∀ q id, Event.send q id ∈ (WriteDataPattern env).events →
      ∃ rest, (WriteDataPattern env).events = Event.send .contig env.contig.cmdId :: rest) ∧
    (∀ (namSpcPtr : Identify) (lbaDataSize : Nat), env.namSpc = some namSpcPtr →
      (Identify.GetLBADataSize env.T namSpcPtr).outcome = .returned lbaDataSize →
      (∃ rest, (WriteDataPattern env).events = Event.send .contig env.contig.cmdId :: rest) ∧
      ((∃ id, Event.send .discontig id ∈ (WriteDataPattern env).events) ↔
        ((SendToIOSQ .contig env.contig).outcome = .returned () ∧
          ∃ regVal, env.capRead = some regVal ∧ regVal &&& env.CAP_CQR = 0)) ∧
      ((SendToIOSQ .contig env.contig).outcome = .returned () → env.capRead = none →
        (WriteDataPattern env).outcome = .thrown) ∧
      ((SendToIOSQ .contig env.contig).outcome = .returned () →
        ∀ regVal, env.capRead = some regVal → regVal &&& env.CAP_CQR ≠ 0 →
          (WriteDataPattern env).outcome = .returned () ∧
          RunCoreTest env = .returned true ∧
          ∀ id, Event.send .discontig id ∉ (WriteDataPattern env).events)) := by
  refine ⟨?_, fun namSpcPtr lbaDataSize hns hsz =>
    writeDataPattern_prepared env namSpcPtr lbaDataSize hns hsz⟩
  intro q id hmem
  cases hns : env.namSpc with
  | none => simp [WriteDataPattern, hns] at hmem
  | some namSpcPtr =>
    cases hsz : (Identify.GetLBADataSize env.T namSpcPtr).outcome with
    | returned lbaDataSize => exact (writeDataPattern_prepared env namSpcPtr lbaDataSize hns hsz).1
    | thrown => simp [WriteDataPattern, hns, hsz] at hmem
    | undefined => simp [WriteDataPattern, hns, hsz] at hmem

/-- The three sample environments: CQR clear (both pairs used), CQR set (the
function returns after the contiguous pair), CAP unreadable (it throws). -/
theorem writeDataPattern_queue_gating_witness :
    sampleEnv.namSpc = some Identify.sampleNamespc ∧
    (Identify.GetLBADataSize sampleEnv.T Identify.sampleNamespc).outcome = .returned 512 ∧
    (∃ id, Event.send .discontig id ∈ (WriteDataPattern sampleEnv).events) ∧
    ((WriteDataPattern contigOnlyEnv).outcome = .returned () ∧
      RunCoreTest contigOnlyEnv = .returned true ∧
      ∀ id, Event.send .discontig id ∉ (WriteDataPattern contigOnlyEnv).events) ∧
    (WriteDataPattern unreadableCapEnv).outcome = .thrown :=
  ⟨rfl, by decide,
   ((writeDataPattern_queue_gating sampleEnv).2 Identify.sampleNamespc 512 rfl
      (by decide)).2.1.mpr ⟨by decide, 0x0000002001000FFF, by decide, by decide⟩,
   ((writeDataPattern_queue_gating contigOnlyEnv).2 Identify.sampleNamespc 512 rfl
      (by decide)).2.2.2 (by decide) 0x0000002001010FFF (by decide) (by decide),
   ((writeDataPattern_queue_gating unreadableCapEnv).2 Identify.sampleNamespc 512 rfl
      (by decide)).2.2.1 (by decide) (by decide)⟩

/-- The fault-aware embedding agrees with `SendToIOSQ` when no collaborator
throws. -/
theorem sendToIOSQ_withFaults_noFaults (q : QPair) (a : QueueAnswers) :
    SendToIOSQ_withFaults q a noFaults = SendToIOSQ q a := by
  simp [SendToIOSQ_withFaults, SendToIOSQ, noFaults]

/-- C18 (as stated, refuted): when the submission queue is full, `Send` throws,
the exception leaves `SendToIOSQ`, and the doorbell is not rung in that
execution. -/
theorem sendToIOSQ_queue_full_counterexample :
    SendToIOSQ_withFaults .contig goodAnswers queueFullFaults =
      ⟨.thrown, [.send .contig 3]⟩ ∧
    Event.ring .contig ∉ (SendToIOSQ_withFaults .contig goodAnswers queueFullFaults).events ∧
    (SendToIOSQ_withFaults .contig goodAnswers queueFullFaults).events.count
      (.ring .contig) = 0 := by
  decide

/-- C18 (amended): in every execution of `SendToIOSQ`, `Send` is called exactly
once, as the first step. When that call or the dump of the SQ throws, the
function throws and the doorbell is not rung; otherwise the doorbell is rung
exactly once, after the submission. A wait is issued only after the ring has
returned, once, with an expected count of exactly 1; and a reap happens only
after a wait that returned, succeeded and observed exactly 1 entry. -/
theorem sendToIOSQ_submit_ring_wait_order (q : QPair) (a : QueueAnswers) (f : CalleeFaults) :
    ((SendToIOSQ_withFaults q a f).events.take 1 = [.send q a.cmdId] ∧
      ∀ q2 id, Event.send q2 id ∉ (SendToIOSQ_withFaults q a f).events.drop 1) ∧
    ((f.send = true ∨ f.dumpSQ = true) →
      (SendToIOSQ_withFaults q a f).outcome = .thrown ∧
      ∀ q2, Event.ring q2 ∉ (SendToIOSQ_withFaults q a f).events) ∧
    (f.send = false → f.dumpSQ = false →
      (SendToIOSQ_withFaults q a f).events.take 3 =
        [.send q a.cmdId, .dumpSQ q, .ring q] ∧
      ∀ q2, Event.ring q2 ∉ (SendToIOSQ_withFaults q a f).events.drop 3) ∧
    (∀ q2 n, Event.wait q2 n ∈ (SendToIOSQ_withFaults q a f).events →
      f.ring = false ∧ q2 = q ∧ n = 1 ∧
      (SendToIOSQ_withFaults q a f).events.take 4 =
        [.send q a.cmdId, .dumpSQ q, .ring q, .wait q 1] ∧
      ∀ q3 m, Event.wait q3 m ∉ (SendToIOSQ_withFaults q a f).events.drop 4) ∧
    (∀ q2 n, Event.reap q2 n ∈ (SendToIOSQ_withFaults q a f).events →
      f.wait = false ∧ a.waitResult = true ∧ a.numCE = 1 ∧
      Event.reap q2 n ∈ (SendToIOSQ_withFaults q a f).events.drop 4) := by
  cases hs : f.send
  · cases hd : f.dumpSQ
    · cases hr : f.ring
      · cases hw : f.wait
        · cases hwr : a.waitResult
          · simp [SendToIOSQ_withFaults, Validate, hs, hd, hr, hw, hwr]
          · by_cases h1 : a.numCE = 1
            · cases hc : f.dumpCQ
              · cases hg : f.getQMetrics
                · cases hp : f.reap
                  · by_cases h2 : a.numReaped = 1
                    · cases hl : f.logCE
                      · cases hk : f.peekCE
                        · by_cases h3 : a.ce.statusCode = 0
                          · simp [SendToIOSQ_withFaults, Validate, hs, hd, hr, hw, hwr, h1, hc, hg, hp, h2, hl, hk, h3]
                          · simp [SendToIOSQ_withFaults, Validate, hs, hd, hr, hw, hwr, h1, hc, hg, hp, h2, hl, hk, h3]
                        · simp [SendToIOSQ_withFaults, Validate, hs, hd, hr, hw, hwr, h1, hc, hg, hp, h2, hl, hk]
                      · simp [SendToIOSQ_withFaults, Validate, hs, hd, hr, hw, hwr, h1, hc, hg, hp, h2, hl]
                    · simp [SendToIOSQ_withFaults, Validate, hs, hd, hr, hw, hwr, h1, hc, hg, hp, h2]
                  · simp [SendToIOSQ_withFaults, Validate, hs, hd, hr, hw, hwr, h1, hc, hg, hp]
                · simp [SendToIOSQ_withFaults, Validate, hs, hd, hr, hw, hwr, h1, hc, hg]
              · simp [SendToIOSQ_withFaults, Validate, hs, hd, hr, hw, hwr, h1, hc]
            · simp [SendToIOSQ_withFaults, Validate, hs, hd, hr, hw, hwr, h1]
        · simp [SendToIOSQ_withFaults, Validate, hs, hd, hr, hw]
      · simp [SendToIOSQ_withFaults, Validate, hs, hd, hr]
    · simp [SendToIOSQ_withFaults, Validate, hs, hd]
  · simp [SendToIOSQ_withFaults, Validate, hs]
/-- With no fault on the good sample queue pair the doorbell is rung once, third;
with a full submission queue it is not rung. -/
theorem sendToIOSQ_submit_ring_wait_order_witness :
    ((SendToIOSQ_withFaults .contig goodAnswers noFaults).events.take 3 =
        [.send .contig 3, .dumpSQ .contig, .ring .contig] ∧
      ∀ q2, Event.ring q2 ∉ (SendToIOSQ_withFaults .contig goodAnswers noFaults).events.drop 3) ∧
    ((SendToIOSQ_withFaults .contig goodAnswers queueFullFaults).outcome = .thrown ∧
      ∀ q2, Event.ring q2 ∉
        (SendToIOSQ_withFaults .contig goodAnswers queueFullFaults).events) ∧
    (goodAnswers.waitResult = true ∧ goodAnswers.numCE = 1) :=
  ⟨(sendToIOSQ_submit_ring_wait_order .contig goodAnswers noFaults).2.2.1 (by decide)
     (by decide),
   (sendToIOSQ_submit_ring_wait_order .contig goodAnswers queueFullFaults).2.1
     (Or.inl (by decide)),
   ⟨((sendToIOSQ_submit_ring_wait_order .contig goodAnswers noFaults).2.2.2.2
      .contig 1 (by decide)).2.1,
    ((sendToIOSQ_submit_ring_wait_order .contig goodAnswers noFaults).2.2.2.2
      .contig 1 (by decide)).2.2.1⟩⟩

end WriteDataPat_r10b

end Tnvme
